import Mathlib

/-!
# Verification of the nt2dc named-tuple-to-dataclass converter

This file gives a shallow embedding, in Lean, of `src/nt2dc/named_tuple.py`:
the module that synthesizes a dataclass type from a `NamedTuple` class
(`make_dataclass`), rewrites nested generic type annotations
(`_get_target_data_type_dc`, `_make_generic_type`), converts instances
(`get_dataclass_object`, `_narrow_named_tuple_instance`), and memoizes
synthesized types in a module-level cache (`_type_cache`).

Modelling conventions:

* Python type objects are modelled by the inductive `PyType`: atomic classes
  (`base`), generic applications such as `list[int]` (`generic`), `NamedTuple`
  classes (`record`, carrying the ordered field declarations), and
  engine-synthesized dataclasses (`dcls`).  A synthesized dataclass carries a
  numeric identity `id` standing for Python object identity; the `dcls`
  constructor itself plays the role of the `__nt_as_dc` marker attribute set
  by `make_dataclass`.
* The runtime is fixed to the Python >= 3.9 configuration of the module, in
  which the module-level default `__BUILT_IN_REPLACEMENTS__` is `None`; a
  substitution table is therefore an `Option` of an association list, `none`
  standing for Python `None`.
* The module-level mutable state (the `_type_cache` dict and the allocation
  of fresh class objects) is threaded explicitly through `ConvState`.  The
  cache is an association list with newest entry first, matching Python dict
  lookup/overwrite behaviour for the access pattern of the code; `counter`
  allocates the identity of each freshly created class object.
* Python's recursion is unbounded and `_get_target_data_type_dc` can genuinely
  diverge (a substitution table can map a generic base back to a record type
  that mentions that base), so every recursive function takes explicit fuel
  and exhaustion is the distinguished error `PyErr.fuelOut`.  All theorems are
  stated about runs that return a real result or a real Python error.
* `_make_generic_type`'s qualified-name synthesis (module imports, `qualname`,
  and the final `eval` of `"Base[Arg1, ...]"`) is Python namespace machinery
  whose net effect on a well-formed input is to build the generic application
  of the (already rewritten) base to the (re-rewritten) argument list; it is
  modelled as that reconstruction.  The double rewriting of the argument list
  (once in `_get_target_data_type_dc`, once more in `_make_generic_type`) is
  kept exactly as in the source.
-/

/-- Atomic Python classes and type objects occurring as annotation leaves:
the built-in container classes, their `typing` spellings (`typing.List` etc.,
which are distinct objects from the built-in classes), scalar classes, and
arbitrary other classes identified by name. -/
inductive PyBase where
  | int | float | bool | str | list | dict | set | frozenset | tuple
  | tyList | tyDict | tySet | tyFrozenSet | tyTuple
  | noneType
  | other (s : String)
deriving DecidableEq, Repr

/-- Python type expressions as walked by `_get_target_data_type_dc`:
an atomic class, a generic application (`get_args` nonempty), a `NamedTuple`
class with its ordered `(field name, declared type)` list, or a dataclass
synthesized by the engine (the constructor doubles as the `__nt_as_dc`
marker; `id` is the object identity of the created class). -/
inductive PyType where
  | base (b : PyBase)
  | generic (origin : PyType) (args : List PyType)
  | record (name : String) (fields : List (String × PyType))
  | dcls (id : Nat) (name : String) (fields : List (String × PyType))
deriving Repr

mutual

def decEqPyType : (a b : PyType) → Decidable (a = b)
  | .base a, .base b =>
    match decEq a b with
    | isTrue h => isTrue (by rw [h])
    | isFalse h => isFalse (by intro hh; injection hh with h1; exact h h1)
  | .base _, .generic _ _ => isFalse (fun h => PyType.noConfusion h)
  | .base _, .record _ _ => isFalse (fun h => PyType.noConfusion h)
  | .base _, .dcls _ _ _ => isFalse (fun h => PyType.noConfusion h)
  | .generic _ _, .base _ => isFalse (fun h => PyType.noConfusion h)
  | .generic o1 l1, .generic o2 l2 =>
    match decEqPyType o1 o2, decEqPyTypeList l1 l2 with
    | isTrue h1, isTrue h2 => isTrue (by rw [h1, h2])
    | isFalse h1, _ => isFalse (by intro hh; injection hh with a b; exact h1 a)
    | _, isFalse h2 => isFalse (by intro hh; injection hh with a b; exact h2 b)
  | .generic _ _, .record _ _ => isFalse (fun h => PyType.noConfusion h)
  | .generic _ _, .dcls _ _ _ => isFalse (fun h => PyType.noConfusion h)
  | .record _ _, .base _ => isFalse (fun h => PyType.noConfusion h)
  | .record _ _, .generic _ _ => isFalse (fun h => PyType.noConfusion h)
  | .record n1 f1, .record n2 f2 =>
    match decEq n1 n2, decEqPyFields f1 f2 with
    | isTrue h1, isTrue h2 => isTrue (by rw [h1, h2])
    | isFalse h1, _ => isFalse (by intro hh; injection hh with a b; exact h1 a)
    | _, isFalse h2 => isFalse (by intro hh; injection hh with a b; exact h2 b)
  | .record _ _, .dcls _ _ _ => isFalse (fun h => PyType.noConfusion h)
  | .dcls _ _ _, .base _ => isFalse (fun h => PyType.noConfusion h)
  | .dcls _ _ _, .generic _ _ => isFalse (fun h => PyType.noConfusion h)
  | .dcls _ _ _, .record _ _ => isFalse (fun h => PyType.noConfusion h)
  | .dcls i1 n1 f1, .dcls i2 n2 f2 =>
    match decEq i1 i2, decEq n1 n2, decEqPyFields f1 f2 with
    | isTrue h1, isTrue h2, isTrue h3 => isTrue (by rw [h1, h2, h3])
    | isFalse h1, _, _ => isFalse (by intro hh; injection hh with a b c; exact h1 a)
    | _, isFalse h2, _ => isFalse (by intro hh; injection hh with a b c; exact h2 b)
    | _, _, isFalse h3 => isFalse (by intro hh; injection hh with a b c; exact h3 c)

def decEqPyTypeList : (a b : List PyType) → Decidable (a = b)
  | [], [] => isTrue rfl
  | [], _ :: _ => isFalse (fun h => List.noConfusion h)
  | _ :: _, [] => isFalse (fun h => List.noConfusion h)
  | x :: xs, y :: ys =>
    match decEqPyType x y, decEqPyTypeList xs ys with
    | isTrue h1, isTrue h2 => isTrue (by rw [h1, h2])
    | isFalse h1, _ => isFalse (by intro hh; injection hh with a b; exact h1 a)
    | _, isFalse h2 => isFalse (by intro hh; injection hh with a b; exact h2 b)

def decEqPyFields : (a b : List (String × PyType)) → Decidable (a = b)
  | [], [] => isTrue rfl
  | [], _ :: _ => isFalse (fun h => List.noConfusion h)
  | _ :: _, [] => isFalse (fun h => List.noConfusion h)
  | (k1, v1) :: t1, (k2, v2) :: t2 =>
    match decEq k1 k2, decEqPyType v1 v2, decEqPyFields t1 t2 with
    | isTrue h1, isTrue h2, isTrue h3 => isTrue (by rw [h1, h2, h3])
    | isFalse h1, _, _ =>
      isFalse (by intro hh; injection hh with a b; injection a with a1 a2; exact h1 a1)
    | _, isFalse h2, _ =>
      isFalse (by intro hh; injection hh with a b; injection a with a1 a2; exact h2 a2)
    | _, _, isFalse h3 => isFalse (by intro hh; injection hh with a b; exact h3 b)

end

instance : DecidableEq PyType := decEqPyType

/-- Python exceptions surfaced by the embedded code, plus the two
model-specific outcomes `fuelOut` (recursion budget exhausted; the Python
code would still be running or would overflow the stack) and `unmodeledCall`
(a substitution table asked for a replacement value to be built by calling an
arbitrary non-container class as a constructor, which is outside this
model). -/
inductive PyErr where
  | typeError | attributeError | fuelOut | unmodeledCall
deriving DecidableEq, Repr

/-- A `generic_type_mapping` argument: Python `None` or a dict from type to
type, as an association list. -/
abbrev SubstTable := Option (List (PyType × PyType))

/-- First-match association-list lookup; the dict lookups performed by the
source (`x in d.keys()` followed by `d[x]`) for the dict access pattern of
this module. -/
def alookup {α β : Type} [DecidableEq α] : List (α × β) → α → Option β
  | [], _ => none
  | (k, v) :: rest, key => if k = key then some v else alookup rest key

/-- Lookup in an optional substitution table; `none` is Python `None`, for
which the source's `generic_type_mapping is not None and ... in ...keys()`
guard is false. -/
def substLookup (tbl : SubstTable) (k : PyType) : Option PyType :=
  match tbl with
  | none => none
  | some m => alookup m k

/-- The module-level mutable state: the `_type_cache` dict (newest entry
first) and the allocator for the identity of freshly created class
objects. -/
structure ConvState where
  cache : List (PyType × PyType)
  counter : Nat
deriving Repr

/-- Embeds `_is_namedtuple_class`: a class structurally qualifies as a record
type when both `_asdict` and `_fields` live in its `__dict__`.  Among the
modelled type objects exactly the `NamedTuple` classes have both; synthesized
dataclasses, built-in classes, `typing` aliases and generic aliases have
neither. -/
def is_namedtuple_class : PyType → Bool
  | .record _ _ => true
  | _ => false

/-- Embeds the `get_type_hints(clz)` call of `make_dataclass`:
a `NamedTuple` class or a synthesized dataclass yields its ordered annotation
list; a plain class without annotations yields the empty dict; a generic
alias (`list[int]`) or a `typing` special alias (`typing.List`) is not a
class and `get_type_hints` raises `TypeError`. -/
def getTypeHints : PyType → Except PyErr (List (String × PyType))
  | .record _ fs => .ok fs
  | .dcls _ _ fs => .ok fs
  | .generic _ _ => .error .typeError
  | .base b =>
    match b with
    | .tyList | .tyDict | .tySet | .tyFrozenSet | .tyTuple => .error .typeError
    | _ => .ok []

/-- The `__name__` attribute of the modelled type objects, as read by
`make_dataclass` when composing `"{}{}{}".format(prefix, clz.__name__,
suffix)`.  (`make_dataclass` reads it only after `get_type_hints` succeeded,
so the `generic` case is never reached.) -/
def baseName : PyBase → String
  | .int => "int" | .float => "float" | .bool => "bool" | .str => "str"
  | .list => "list" | .dict => "dict" | .set => "set"
  | .frozenset => "frozenset" | .tuple => "tuple"
  | .tyList => "List" | .tyDict => "Dict" | .tySet => "Set"
  | .tyFrozenSet => "FrozenSet" | .tyTuple => "Tuple"
  | .noneType => "NoneType"
  | .other s => s

def nameOf : PyType → String
  | .record n _ => n
  | .dcls _ n _ => n
  | .base b => baseName b
  | .generic _ _ => ""

mutual

/-- Embeds `make_dataclass(clz, generic_type_mapping, *, prefix, suffix,
use_cache)`.  With `use_cache` it first consults `_type_cache`; otherwise it
rewrites every type hint of `clz` through `_get_target_data_type_dc` — the
source passes only `(value, generic_type_mapping)` there, so the nested
rewrite runs with the default `prefix=""`, `suffix=""`, `use_cache=False` —
builds the dataclass named `prefix + clz.__name__ + suffix` with the rewritten
field list (in source order), marks it (`dcls` constructor), and stores it in
the cache only when `use_cache` is set, as the final step. -/
def make_dataclass : Nat → PyType → SubstTable → String → String → Bool → ConvState →
    (Except PyErr PyType × ConvState)
  | 0, _, _, _, _, _, st => (.error .fuelOut, st)
  | fuel+1, clz, tbl, pre, suf, use_cache, st =>
    match (if use_cache then alookup st.cache clz else none) with
    | some t => (.ok t, st)
    | none =>
      match getTypeHints clz with
      | .error e => (.error e, st)
      | .ok hints =>
        match rewrite_fields fuel hints tbl "" "" false st with
        | (.error e, st1) => (.error e, st1)
        | (.ok hints2, st1) =>
          let target_name := pre ++ nameOf clz ++ suf
          let result := PyType.dcls st1.counter target_name hints2
          let st2 : ConvState := { st1 with counter := st1.counter + 1 }
          let st3 := if use_cache then { st2 with cache := (clz, result) :: st2.cache } else st2
          (.ok result, st3)

/-- The field loop of `make_dataclass`: rewrites each `(key, value)` type hint
left to right through `_get_target_data_type_dc`, keeping keys and order. -/
def rewrite_fields : Nat → List (String × PyType) → SubstTable → String → String → Bool → ConvState →
    (Except PyErr (List (String × PyType)) × ConvState)
  | _, [], _, _, _, _, st => (.ok [], st)
  | 0, _ :: _, _, _, _, _, st => (.error .fuelOut, st)
  | fuel+1, (k, v) :: rest, tbl, pre, suf, uc, st =>
    match get_target_data_type_dc fuel v tbl pre suf uc st with
    | (.error e, st1) => (.error e, st1)
    | (.ok v2, st1) =>
      match rewrite_fields fuel rest tbl pre suf uc st1 with
      | (.error e, st2) => (.error e, st2)
      | (.ok rest2, st2) => (.ok ((k, v2) :: rest2), st2)

/-- Embeds `_get_target_data_type_dc(value, generic_type_mapping, *, prefix,
suffix, use_cache)`.  When `get_args(value)` is nonempty: rewrite every
argument left to right, substitute the `get_origin` base through the table if
its key, rewrite the (possibly substituted) base, and hand both to
`_make_generic_type`.  Otherwise, a class passing `_is_namedtuple_class` is
sent to `make_dataclass`; any other value is returned unchanged. -/
def get_target_data_type_dc : Nat → PyType → SubstTable → String → String → Bool → ConvState →
    (Except PyErr PyType × ConvState)
  | 0, _, _, _, _, _, st => (.error .fuelOut, st)
  | fuel+1, value, tbl, pre, suf, uc, st =>
    match value with
    | .generic origin (a :: rest) =>
      match rewrite_args fuel (a :: rest) tbl pre suf uc st with
      | (.error e, st1) => (.error e, st1)
      | (.ok items, st1) =>
        let origin1 := match substLookup tbl origin with
                       | some t => t
                       | none => origin
        match get_target_data_type_dc fuel origin1 tbl pre suf uc st1 with
        | (.error e, st2) => (.error e, st2)
        | (.ok origin2, st2) => make_generic_type fuel origin2 items tbl pre suf uc st2
    | _ =>
      if is_namedtuple_class value then
        make_dataclass fuel value tbl pre suf uc st
      else (.ok value, st)

/-- The argument loops of `_get_target_data_type_dc` and
`_make_generic_type`: rewrites each element left to right, keeping order. -/
def rewrite_args : Nat → List PyType → SubstTable → String → String → Bool → ConvState →
    (Except PyErr (List PyType) × ConvState)
  | _, [], _, _, _, _, st => (.ok [], st)
  | 0, _ :: _, _, _, _, _, st => (.error .fuelOut, st)
  | fuel+1, a :: rest, tbl, pre, suf, uc, st =>
    match get_target_data_type_dc fuel a tbl pre suf uc st with
    | (.error e, st1) => (.error e, st1)
    | (.ok a2, st1) =>
      match rewrite_args fuel rest tbl pre suf uc st1 with
      | (.error e, st2) => (.error e, st2)
      | (.ok rest2, st2) => (.ok (a2 :: rest2), st2)

/-- Embeds `_make_generic_type(generic_base, generic_args, ...)`: the source
rewrites each element of `generic_args` once more through
`_get_target_data_type_dc`, synthesizes the textual qualified name
`"Base[Arg1, Arg2, ...]"` and `eval`s it against the assembled namespaces;
the net effect of that `eval` on a well-formed input is the generic
application of `generic_base` to the re-rewritten arguments, which is what
the model returns. -/
def make_generic_type : Nat → PyType → List PyType → SubstTable → String → String → Bool → ConvState →
    (Except PyErr PyType × ConvState)
  | 0, _, _, _, _, _, _, st => (.error .fuelOut, st)
  | fuel+1, generic_base, generic_args, tbl, pre, suf, uc, st =>
    match rewrite_args fuel generic_args tbl pre suf uc st with
    | (.error e, st1) => (.error e, st1)
    | (.ok args2, st1) => (.ok (.generic generic_base args2), st1)

end

/-- The two `typing`/`collections.abc` marker objects that
`_narrow_named_tuple_instance` compares field values against with `is`:
the `typing.NamedTuple` object and the `collections.abc.Iterable` class
object.  They are ordinary Python objects and could themselves occur as field
values, which is the only situation in which those identity tests hold. -/
inductive PyMarker where
  | namedTupleMarker | iterableMarker
deriving DecidableEq, Repr

/-- Python runtime values as handled by the instance narrower.  Collections
carry their iteration order explicitly as a list (for `set`/`frozenset` this
is the order Python iteration would produce, so `list(value)` is modelled by
reading the list off).  `vrecord` is a `NamedTuple` instance carrying its
class (name and field declarations) and its field values in declaration
order; `vdcobj` is an instance of a synthesized dataclass. -/
inductive PyVal where
  | vint (n : Int)
  | vfloat (q : ℚ)
  | vbool (b : Bool)
  | vstr (s : String)
  | vnone
  | vlist (xs : List PyVal)
  | vtuple (xs : List PyVal)
  | vset (xs : List PyVal)
  | vfrozenset (xs : List PyVal)
  | vdict (kvs : List (PyVal × PyVal))
  | vrecord (name : String) (ftys : List (String × PyType)) (vals : List PyVal)
  | vdcobj (ty : PyType) (fields : List (String × PyVal))
  | vmarker (m : PyMarker)
deriving Repr

mutual

def beqPyVal : PyVal → PyVal → Bool
  | .vint a, .vint b => a == b
  | .vfloat a, .vfloat b => a == b
  | .vbool a, .vbool b => a == b
  | .vstr a, .vstr b => a == b
  | .vnone, .vnone => true
  | .vlist a, .vlist b => beqPyValList a b
  | .vtuple a, .vtuple b => beqPyValList a b
  | .vset a, .vset b => beqPyValList a b
  | .vfrozenset a, .vfrozenset b => beqPyValList a b
  | .vdict a, .vdict b => beqPyValPairs a b
  | .vrecord n1 t1 v1, .vrecord n2 t2 v2 =>
    n1 == n2 && decide (t1 = t2) && beqPyValList v1 v2
  | .vdcobj t1 f1, .vdcobj t2 f2 => decide (t1 = t2) && beqPyValFields f1 f2
  | .vmarker a, .vmarker b => a == b
  | _, _ => false

def beqPyValList : List PyVal → List PyVal → Bool
  | [], [] => true
  | x :: xs, y :: ys => beqPyVal x y && beqPyValList xs ys
  | _, _ => false

def beqPyValPairs : List (PyVal × PyVal) → List (PyVal × PyVal) → Bool
  | [], [] => true
  | (k1, v1) :: xs, (k2, v2) :: ys => beqPyVal k1 k2 && beqPyVal v1 v2 && beqPyValPairs xs ys
  | _, _ => false

def beqPyValFields : List (String × PyVal) → List (String × PyVal) → Bool
  | [], [] => true
  | (k1, v1) :: xs, (k2, v2) :: ys => k1 == k2 && beqPyVal v1 v2 && beqPyValFields xs ys
  | _, _ => false

end

/-- Python `==` on the modelled values.  Values of distinct runtime kinds
compare unequal — in particular a `list` never equals a `frozenset` — except
that a `set` and a `frozenset` with the same content compare equal.
Same-kind values compare structurally; collections are compared in their
stored iteration order (the model never compares two differently-ordered
representations of the same set). -/
def pyEq (a b : PyVal) : Bool :=
  match a, b with
  | .vset xs, .vfrozenset ys => beqPyValList xs ys
  | .vfrozenset xs, .vset ys => beqPyValList xs ys
  | _, _ => beqPyVal a b

/-- The runtime class of a value, as taken by `key_type = type(value)` in
`_narrow_named_tuple_instance`.  The class of a `NamedTuple` instance is its
record type; the class of the `typing.NamedTuple` marker object is
`function` and that of `collections.abc.Iterable` is `ABCMeta` (neither is a
key of any modelled substitution table). -/
def typeOf : PyVal → PyType
  | .vint _ => .base .int
  | .vfloat _ => .base .float
  | .vbool _ => .base .bool
  | .vstr _ => .base .str
  | .vnone => .base .noneType
  | .vlist _ => .base .list
  | .vtuple _ => .base .tuple
  | .vset _ => .base .set
  | .vfrozenset _ => .base .frozenset
  | .vdict _ => .base .dict
  | .vrecord n ftys _ => .record n ftys
  | .vdcobj ty _ => ty
  | .vmarker .namedTupleMarker => .base (.other "function")
  | .vmarker .iterableMarker => .base (.other "ABCMeta")

/-- Python iteration over a value, as used by the container constructors
(`list(value)`, `set(value)`, ...): collections yield their elements, a dict
yields its keys, a string its characters, a `NamedTuple` instance (being a
tuple) its field values; scalars, dataclass instances and the marker objects
are not iterable and raise `TypeError`. -/
def iterElems : PyVal → Except PyErr (List PyVal)
  | .vlist xs => .ok xs
  | .vtuple xs => .ok xs
  | .vset xs => .ok xs
  | .vfrozenset xs => .ok xs
  | .vdict kvs => .ok (kvs.map Prod.fst)
  | .vstr s => .ok (s.toList.map (fun c => PyVal.vstr (String.mk [c])))
  | .vrecord _ _ vals => .ok vals
  | _ => .error .typeError

/-- Membership with respect to Python `==`, used for `set`/`frozenset`
construction. -/
def pyMem (x : PyVal) : List PyVal → Bool
  | [] => false
  | y :: ys => pyEq x y || pyMem x ys

/-- Deduplication performed by `set(...)`/`frozenset(...)` construction,
keeping the first occurrence of each equal element (the model's stand-in for
hash-based deduplication; the resulting list is the modelled iteration
order). -/
def pyDedup (xs : List PyVal) : List PyVal :=
  xs.foldl (fun acc x => if pyMem x acc then acc else acc ++ [x]) []

/-- An element of an iterable handed to `dict(...)`: it must be a pair
(a length-2 sequence), else `TypeError`. -/
def toPair : PyVal → Except PyErr (PyVal × PyVal)
  | .vlist [a, b] => .ok (a, b)
  | .vtuple [a, b] => .ok (a, b)
  | _ => .error .typeError

def toPairs : List PyVal → Except PyErr (List (PyVal × PyVal))
  | [] => .ok []
  | x :: xs =>
    match toPair x, toPairs xs with
    | .ok p, .ok ps => .ok (p :: ps)
    | .error e, _ => .error e
    | _, .error e => .error e

/-- The native constructions of the well-known built-in generic containers,
the values of `__BUILT_IN_CONSTRUCTORS__`. -/
inductive CtorKind where
  | mkList | mkDict | mkSet | mkFrozenset | mkTuple
deriving DecidableEq, Repr

/-- Embeds `ctor(value)` for the five container constructors. -/
def applyCtor : CtorKind → PyVal → Except PyErr PyVal
  | .mkList, v => (iterElems v).map .vlist
  | .mkTuple, v => (iterElems v).map .vtuple
  | .mkSet, v => (iterElems v).map (fun xs => .vset (pyDedup xs))
  | .mkFrozenset, v => (iterElems v).map (fun xs => .vfrozenset (pyDedup xs))
  | .mkDict, v =>
    match v with
    | .vdict kvs => .ok (.vdict kvs)
    | _ =>
      match iterElems v with
      | .error e => .error e
      | .ok xs => (toPairs xs).map .vdict

/-- Embeds `__BUILT_IN_CONSTRUCTORS__`: the dict from the `typing` aliases
`List`, `Dict`, `Set`, `FrozenSet`, `Tuple` to the corresponding built-in
constructors. -/
def builtInConstructors : List (PyType × CtorKind) :=
  [(.base .tyList, .mkList), (.base .tyDict, .mkDict), (.base .tySet, .mkSet),
   (.base .tyFrozenSet, .mkFrozenset), (.base .tyTuple, .mkTuple)]

/-- Calling a replacement type as a constructor (`ctor = target_type` branch):
the built-in container classes act as their native constructors; calling any
other class as a constructor is outside the model. -/
def builtinClassCtor : PyType → Option CtorKind
  | .base .list => some .mkList
  | .base .dict => some .mkDict
  | .base .set => some .mkSet
  | .base .frozenset => some .mkFrozenset
  | .base .tuple => some .mkTuple
  | _ => none

/-- The constructor used for a substituted value: first the
`__BUILT_IN_CONSTRUCTORS__` lookup on the replacement type, then the
replacement type itself called as a constructor. -/
def ctorFor (target : PyType) : Option CtorKind :=
  match alookup builtInConstructors target with
  | some c => some c
  | none => builtinClassCtor target

/-- Embeds `instance._asdict()`: defined (as the ordered field-name-to-value
dict) exactly on `NamedTuple` instances; any other value lacks the attribute
and raises `AttributeError`. -/
def asdict : PyVal → Except PyErr (List (String × PyVal))
  | .vrecord _ ftys vals => .ok (List.zip (ftys.map Prod.fst) vals)
  | _ => .error .attributeError

/-- The identity test `value is NamedTuple` of the source: it holds exactly
when the value is the `typing.NamedTuple` object itself. -/
def is_namedtuple_marker : PyVal → Bool
  | .vmarker .namedTupleMarker => true
  | _ => false

/-- The identity test `value is Iterable` of the source: it holds exactly
when the value is the `collections.abc.Iterable` class object itself. -/
def is_iterable_marker : PyVal → Bool
  | .vmarker .iterableMarker => true
  | _ => false

mutual

/-- Embeds `_narrow_named_tuple_instance(instance, generic_type_mapping)`:
iterates `instance._asdict().items()` and processes each binding through
`narrow_items`. -/
def narrow_named_tuple_instance : Nat → PyVal → SubstTable →
    Except PyErr (List (String × PyVal))
  | 0, _, _ => .error .fuelOut
  | fuel+1, inst, tbl =>
    match asdict inst with
    | .error e => .error e
    | .ok kvs => narrow_items fuel kvs tbl

/-- The per-field loop of `_narrow_named_tuple_instance`.  Note the source's
two membership tests are the identity comparisons `value is NamedTuple` and
`value is Iterable` against the marker objects themselves, not instance
checks: they hold only when the field value literally is the
`typing.NamedTuple` object (whereupon the recursive narrowing immediately
fails, that object having no `_asdict`) or the `collections.abc.Iterable`
class object (whereupon iterating the class raises `TypeError`).  Afterwards
the substitution table is consulted on `type(value)` and a hit rebuilds the
value through the replacement's constructor. -/
def narrow_items : Nat → List (String × PyVal) → SubstTable →
    Except PyErr (List (String × PyVal))
  | _, [], _ => .ok []
  | 0, _ :: _, _ => .error .fuelOut
  | fuel+1, (key, value) :: rest, tbl =>
    let key_type := typeOf value
    let narrowed : Except PyErr PyVal :=
      if is_namedtuple_marker value then
        match narrow_named_tuple_instance fuel value tbl with
        | .error e => .error e
        | .ok m => .ok (.vdict (m.map (fun p => (PyVal.vstr p.fst, p.snd))))
      else if is_iterable_marker value then
        .error .typeError
      else .ok value
    match narrowed with
    | .error e => .error e
    | .ok v1 =>
      let substituted : Except PyErr PyVal :=
        match substLookup tbl key_type with
        | none => .ok v1
        | some target =>
          match ctorFor target with
          | some c => applyCtor c v1
          | none => .error .unmodeledCall
      match substituted with
      | .error e => .error e
      | .ok v2 =>
        match narrow_items fuel rest tbl with
        | .error e => .error e
        | .ok rest2 => .ok ((key, v2) :: rest2)

end

/-- Keyword binding performed by the synthesized dataclass's `__init__`:
each declared field takes the supplied keyword argument of the same name, in
the dataclass's declared field order; a missing keyword is a `TypeError`. -/
def assign_fields : List (String × PyType) → List (String × PyVal) →
    Except PyErr (List (String × PyVal))
  | [], _ => .ok []
  | (n, _) :: rest, items =>
    match alookup items n with
    | none => .error .typeError
    | some v =>
      match assign_fields rest items with
      | .ok tl => .ok ((n, v) :: tl)
      | .error e => .error e

/-- Embeds the call `target_type(**items_narrowed)` in
`get_dataclass_object`: the keyword construction of the synthesized
dataclass.  It succeeds exactly when every declared field is supplied and no
unexpected keyword is present. -/
def constructDataclass (ty : PyType) (items : List (String × PyVal)) :
    Except PyErr PyVal :=
  match ty with
  | .dcls i n fieldTys =>
    if items.all (fun it => fieldTys.any (fun f => decide (f.fst = it.fst))) then
      match assign_fields fieldTys items with
      | .ok fs => .ok (.vdcobj (.dcls i n fieldTys) fs)
      | .error e => .error e
    else .error .typeError
  | _ => .error .typeError

/-- Embeds `get_dataclass_object(instance, generic_type_mapping, *,
use_cache)`: synthesize (or fetch) the target type from the instance's class
— note this happens, cache store included, before any value is narrowed —
then narrow the field values and construct `target_type(**items_narrowed)`. -/
def get_dataclass_object (fuel : Nat) (inst : PyVal) (tbl : SubstTable)
    (use_cache : Bool) (st : ConvState) :
    (Except PyErr (PyVal × PyType) × ConvState) :=
  match make_dataclass fuel (typeOf inst) tbl "" "DataClass" use_cache st with
  | (.error e, st1) => (.error e, st1)
  | (.ok target_type, st1) =>
    match narrow_named_tuple_instance fuel inst tbl with
    | .error e => (.error e, st1)
    | .ok items =>
      match constructDataclass target_type items with
      | .error e => (.error e, st1)
      | .ok obj => (.ok (obj, target_type), st1)

/-- Embeds `clear_cache()`. -/
def clear_cache (st : ConvState) : ConvState :=
  { st with cache := [] }

/-! ## Auxiliary notions used only in the statements and proofs -/

mutual

/-- Identity erasure on synthesized types: replaces every dataclass object
identity with `0`, leaving names, field names, field order and all type
structure untouched.  Two types are *structurally equal* exactly when their
erasures coincide. -/
def erase : PyType → PyType
  | .base b => .base b
  | .generic o as => .generic (erase o) (eraseList as)
  | .record n fs => .record n (eraseFields fs)
  | .dcls _ n fs => .dcls 0 n (eraseFields fs)

def eraseList : List PyType → List PyType
  | [] => []
  | t :: ts => erase t :: eraseList ts

def eraseFields : List (String × PyType) → List (String × PyType)
  | [] => []
  | (k, t) :: ts => (k, erase t) :: eraseFields ts

end

/-- The result of a stateful run with the state forgotten and identities
erased. -/
def eraseRes (r : Except PyErr PyType × ConvState) : Except PyErr PyType :=
  r.1.map erase

def eraseResL (r : Except PyErr (List PyType) × ConvState) :
    Except PyErr (List PyType) :=
  r.1.map eraseList

def eraseResF (r : Except PyErr (List (String × PyType)) × ConvState) :
    Except PyErr (List (String × PyType)) :=
  r.1.map eraseFields

/-- What the value-level substitution `{frozenset: list}` does to a single
field value (given that the run succeeds): a `frozenset` is rebuilt as the
`list` of its elements in iteration order, everything else is untouched. -/
def fsSubst : PyVal → PyVal
  | .vfrozenset xs => .vlist xs
  | v => v

/-- The five `typing` special aliases, which are not classes and make
`get_type_hints` raise. -/
def isTypingAlias : PyBase → Bool
  | .tyList | .tyDict | .tySet | .tyFrozenSet | .tyTuple => true
  | _ => false

/-- An atomic, non-parameterized, non-record type object: a plain class
(built-in, `typing` alias, or synthesized dataclass) with `get_args` empty
and failing the structural record-type test. -/
def isAtomicNonRecord : PyType → Bool
  | .base _ => true
  | .dcls _ _ _ => true
  | _ => false

/-- One argument position of the generic rewrite: `out` arises from `a` by
the two rewriting passes the source applies to every generic argument (once
in `_get_target_data_type_dc`, once more in `_make_generic_type`), at some
intermediate states (and recursion budgets) of the run. -/
inductive ElemRewrite (tbl : SubstTable) (pre suf : String)
    (uc : Bool) : PyType → PyType → Prop
  | step (a mid out : PyType) (f1 f2 : Nat) (s1 s2 s3 s4 : ConvState)
      (h1 : get_target_data_type_dc f1 a tbl pre suf uc s1 = (.ok mid, s2))
      (h2 : get_target_data_type_dc f2 mid tbl pre suf uc s3 = (.ok out, s4)) :
      ElemRewrite tbl pre suf uc a out

/-! ## General lemmas about the type-level rewrite -/

/-- The field loop of `make_dataclass` preserves field names and field order:
only the declared types are rewritten. -/
theorem rewrite_fields_names : ∀ (fuel : Nat) (fs : List (String × PyType))
    (tbl : SubstTable) (p s : String) (u : Bool) (st st' : ConvState)
    (fs2 : List (String × PyType)),
    rewrite_fields fuel fs tbl p s u st = (.ok fs2, st') →
    fs2.map Prod.fst = fs.map Prod.fst := by
  intro fuel
  induction fuel with
  | zero =>
    intro fs tbl p s u st st' fs2 h
    cases fs with
    | nil =>
      simp only [rewrite_fields, Prod.mk.injEq, Except.ok.injEq] at h
      simp [← h.1]
    | cons a rest => simp [rewrite_fields] at h
  | succ n ih =>
    intro fs tbl p s u st st' fs2 h
    cases fs with
    | nil =>
      simp only [rewrite_fields, Prod.mk.injEq, Except.ok.injEq] at h
      simp [← h.1]
    | cons a rest =>
      obtain ⟨k, v⟩ := a
      simp only [rewrite_fields] at h
      split at h
      · simp at h
      · split at h
        · simp at h
        · rename_i v2 st1 heq rest2 st2 heq2
          simp only [Prod.mk.injEq, Except.ok.injEq] at h
          obtain ⟨h1, _⟩ := h
          subst h1
          simp [ih rest tbl p s u _ _ _ heq2]

/-- Inversion of a successful cache-free `make_dataclass` run: the result is
a freshly allocated dataclass named `prefix + name + suffix` whose fields are
the rewritten type hints. -/
theorem make_dataclass_false_ok (fuel : Nat) (clz : PyType) (tbl : SubstTable)
    (pre suf : String) (st st' : ConvState) (T : PyType)
    (h : make_dataclass fuel clz tbl pre suf false st = (.ok T, st')) :
    ∃ (m : Nat) (hints fs2 : List (String × PyType)) (st1 : ConvState),
      fuel = m + 1 ∧ getTypeHints clz = .ok hints ∧
      rewrite_fields m hints tbl "" "" false st = (.ok fs2, st1) ∧
      T = .dcls st1.counter (pre ++ nameOf clz ++ suf) fs2 ∧
      st' = { st1 with counter := st1.counter + 1 } := by
  cases fuel with
  | zero => simp [make_dataclass] at h
  | succ m =>
    refine ⟨m, ?_⟩
    cases hhints : getTypeHints clz with
    | error e => simp [make_dataclass, hhints] at h
    | ok hints =>
      rcases hrw : rewrite_fields m hints tbl "" "" false st with ⟨r, st1⟩
      cases r with
      | error e => simp [make_dataclass, hhints, hrw] at h
      | ok fs2 =>
        simp only [make_dataclass, hhints, hrw] at h
        simp only [Bool.false_eq_true, if_false, Prod.mk.injEq, Except.ok.injEq] at h
        exact ⟨hints, fs2, st1, rfl, rfl, hrw, h.1.symm, h.2.symm⟩

/-- Construction direction: a successful field rewrite yields the successful
cache-free `make_dataclass` run. -/
theorem make_dataclass_false_build (m : Nat) (clz : PyType) (tbl : SubstTable)
    (pre suf : String) (st st1 : ConvState) (hints fs2 : List (String × PyType))
    (h1 : getTypeHints clz = .ok hints)
    (h2 : rewrite_fields m hints tbl "" "" false st = (.ok fs2, st1)) :
    make_dataclass (m+1) clz tbl pre suf false st =
      (.ok (.dcls st1.counter (pre ++ nameOf clz ++ suf) fs2),
       { st1 with counter := st1.counter + 1 }) := by
  simp [make_dataclass, h1, h2]

/-- A cache hit: with `use_cache` and the source type present in
`_type_cache`, `make_dataclass` returns the cached type unchanged and touches
nothing, regardless of the substitution table, prefix and suffix of the
call. -/
theorem make_dataclass_hit (fuel : Nat) (clz T : PyType) (tbl : SubstTable)
    (pre suf : String) (st : ConvState) (h : alookup st.cache clz = some T) :
    make_dataclass (fuel+1) clz tbl pre suf true st = (.ok T, st) := by
  simp [make_dataclass, h]

/-- After any successful `make_dataclass` run with `use_cache`, the returned
type is in the cache under the source type. -/
theorem make_dataclass_store (fuel : Nat) (clz : PyType) (tbl : SubstTable)
    (pre suf : String) (st st' : ConvState) (T : PyType)
    (h : make_dataclass fuel clz tbl pre suf true st = (.ok T, st')) :
    alookup st'.cache clz = some T := by
  cases fuel with
  | zero => simp [make_dataclass] at h
  | succ m =>
    simp only [make_dataclass, if_pos] at h
    split at h
    · rename_i t hc
      simp only [Prod.mk.injEq, Except.ok.injEq] at h
      rw [← h.2, ← h.1]
      exact hc
    · split at h
      · simp at h
      · split at h
        · simp at h
        · rename_i hints hhints fs2 st1 hrw
          simp only [Prod.mk.injEq, Except.ok.injEq] at h
          rw [← h.2, ← h.1]
          simp [alookup]

theorem getTypeHints_base (b : PyBase) (h : isTypingAlias b = false) :
    getTypeHints (.base b) = .ok [] := by
  cases b <;> first | rfl | simp [isTypingAlias] at h

/-! ## Claim theorems -/

/-- C1: for every source record type `R`, the type synthesized by
`make_dataclass(R)` (no caching, any substitution table, prefix and suffix)
is a dataclass with exactly the same number of fields as `R`, with the same
field names in the same order as `R`'s declared fields. -/
theorem c1_roundtrip_field_count (fuel : Nat) (n : String)
    (fs : List (String × PyType)) (tbl : SubstTable) (pre suf : String)
    (st st' : ConvState) (T : PyType)
    (h : make_dataclass fuel (.record n fs) tbl pre suf false st = (.ok T, st')) :
    ∃ (i : Nat) (fs2 : List (String × PyType)),
      T = PyType.dcls i (pre ++ n ++ suf) fs2 ∧
      fs2.length = fs.length ∧
      fs2.map Prod.fst = fs.map Prod.fst := by
  obtain ⟨m, hints, fs2, st1, _, hhints, hrw, hT, _⟩ :=
    make_dataclass_false_ok fuel (.record n fs) tbl pre suf st st' T h
  simp only [getTypeHints, Except.ok.injEq] at hhints
  subst hhints
  have hnames := rewrite_fields_names m fs tbl "" "" false st st1 fs2 hrw
  refine ⟨st1.counter, fs2, ?_, ?_, hnames⟩
  · simpa [nameOf] using hT
  · have := congrArg List.length hnames
    simpa using this

theorem c1_roundtrip_field_count_witness :
    (make_dataclass 9 (.record "S" [("a", PyType.base .int), ("b", PyType.base .float)])
        none "" "DataClass" false ⟨[], 0⟩
      = (.ok (.dcls 0 "SDataClass" [("a", PyType.base .int), ("b", PyType.base .float)]), ⟨[], 1⟩)) ∧
    (∃ (i : Nat) (fs2 : List (String × PyType)),
      (PyType.dcls 0 "SDataClass" [("a", PyType.base .int), ("b", PyType.base .float)])
        = PyType.dcls i ("" ++ "S" ++ "DataClass") fs2 ∧
      fs2.length = [("a", PyType.base .int), ("b", PyType.base .float)].length ∧
      fs2.map Prod.fst = [("a", PyType.base .int), ("b", PyType.base .float)].map Prod.fst) :=
  ⟨by rfl, c1_roundtrip_field_count 9 "S" [("a", PyType.base .int), ("b", PyType.base .float)]
    none "" "DataClass" ⟨[], 0⟩ ⟨[], 1⟩
    (.dcls 0 "SDataClass" [("a", PyType.base .int), ("b", PyType.base .float)]) (by rfl)⟩

/-- C9: an atomic (non-parameterized, non-record) type that is a key of the
substitution table is returned unchanged by `_get_target_data_type_dc`: the
type-level container substitution is only applied to the base of a generic
application carrying at least one argument, never to a bare atomic
annotation. -/
theorem c9_atomic_key_unchanged (fuel : Nat) (T : PyType) (tbl : SubstTable)
    (pre suf : String) (uc : Bool) (st : ConvState)
    (h1 : isAtomicNonRecord T = true)
    (h2 : (substLookup tbl T).isSome = true) :
    get_target_data_type_dc (fuel+1) T tbl pre suf uc st = (.ok T, st) := by
  cases T with
  | base b => simp [get_target_data_type_dc, is_namedtuple_class]
  | dcls i nm fs => simp [get_target_data_type_dc, is_namedtuple_class]
  | generic o as => simp [isAtomicNonRecord] at h1
  | record nm fs => simp [isAtomicNonRecord] at h1

theorem c9_atomic_key_unchanged_witness :
    isAtomicNonRecord (.base .frozenset) = true ∧
    (substLookup (some [(.base .frozenset, .base .list)]) (.base .frozenset)).isSome = true ∧
    get_target_data_type_dc 4 (.base .frozenset)
        (some [(.base .frozenset, .base .list)]) "" "" false ⟨[], 0⟩
      = (.ok (.base .frozenset), ⟨[], 0⟩) :=
  ⟨by rfl, by rfl,
    c9_atomic_key_unchanged 3 (.base .frozenset) (some [(.base .frozenset, .base .list)])
      "" "" false ⟨[], 0⟩ (by rfl) (by rfl)⟩

/-- C10: for a source type already present in the cache, a
`make_dataclass(R, m, prefix=p, suffix=s, use_cache=True)` call returns the
cached type regardless of the substitution table, prefix and suffix of that
call: the cache is keyed by the source type alone, so the parameters of the
call that populated the cache win silently. -/
theorem c10_cache_ignores_parameters (fuel : Nat) (R T : PyType)
    (tbl : SubstTable) (pre suf : String) (st : ConvState)
    (h : alookup st.cache R = some T) :
    make_dataclass (fuel+1) R tbl pre suf true st = (.ok T, st) :=
  make_dataclass_hit fuel R T tbl pre suf st h

theorem c10_cache_ignores_parameters_witness :
    (alookup (ConvState.mk [(.record "S" [("a", PyType.base .int)], .dcls 7 "Other" [])] 9).cache
        (.record "S" [("a", PyType.base .int)]) = some (.dcls 7 "Other" [])) ∧
    make_dataclass 5 (.record "S" [("a", PyType.base .int)])
        (some [(.base .frozenset, .base .list)]) "X" "Y" true
        ⟨[(.record "S" [("a", PyType.base .int)], .dcls 7 "Other" [])], 9⟩
      = (.ok (.dcls 7 "Other" []),
         ⟨[(.record "S" [("a", PyType.base .int)], .dcls 7 "Other" [])], 9⟩) :=
  ⟨by rfl, c10_cache_ignores_parameters 4 (.record "S" [("a", PyType.base .int)])
    (.dcls 7 "Other" []) (some [(.base .frozenset, .base .list)]) "X" "Y"
    ⟨[(.record "S" [("a", PyType.base .int)], .dcls 7 "Other" [])], 9⟩ (by rfl)⟩

/-- C8 counterexample: `make_dataclass` performs no structural record-type
check at all — invoked on the plain non-record class `int` it does not fail
with a `TypeError`-class condition but happily produces an empty dataclass
named `intDataClass`. -/
theorem c8_counterexample_int_succeeds :
    make_dataclass 9 (.base .int) none "" "DataClass" false ⟨[], 0⟩
      = (.ok (.dcls 0 "intDataClass" []), ⟨[], 1⟩) := by rfl

/-- C8 (amended): `make_dataclass` never consults the structural record-type
test; (a) on any plain non-record class it succeeds, synthesizing a dataclass
from the class's (here: empty) type hints; (b) a `TypeError` is raised only
when type-hint extraction itself fails, e.g. on a generic-alias object, which
is not a class; (c) for a record type with zero fields no error is raised and
an empty target record type is produced. -/
theorem c8_no_record_type_check :
    (∀ (fuel : Nat) (b : PyBase) (tbl : SubstTable) (pre suf : String)
       (st : ConvState), isTypingAlias b = false →
       make_dataclass (fuel+1) (.base b) tbl pre suf false st
         = (.ok (.dcls st.counter (pre ++ baseName b ++ suf) []),
            { st with counter := st.counter + 1 })) ∧
    (∀ (fuel : Nat) (o : PyType) (args : List PyType) (tbl : SubstTable)
       (pre suf : String) (st : ConvState),
       make_dataclass (fuel+1) (.generic o args) tbl pre suf false st
         = (.error .typeError, st)) ∧
    (∀ (fuel : Nat) (n : String) (tbl : SubstTable) (pre suf : String)
       (st : ConvState),
       make_dataclass (fuel+1) (.record n []) tbl pre suf false st
         = (.ok (.dcls st.counter (pre ++ n ++ suf) []),
            { st with counter := st.counter + 1 })) := by
  refine ⟨?_, ?_, ?_⟩
  · intro fuel b tbl pre suf st hb
    have h1 := getTypeHints_base b hb
    have h2 : rewrite_fields fuel [] tbl "" "" false st = (.ok [], st) := by
      cases fuel <;> rfl
    have := make_dataclass_false_build fuel (.base b) tbl pre suf st st [] [] h1 h2
    simpa [nameOf] using this
  · intro fuel o args tbl pre suf st
    simp [make_dataclass, getTypeHints]
  · intro fuel n tbl pre suf st
    have h2 : rewrite_fields fuel [] tbl "" "" false st = (.ok [], st) := by
      cases fuel <;> rfl
    have := make_dataclass_false_build fuel (.record n []) tbl pre suf st st [] [] rfl h2
    simpa [nameOf] using this

theorem c8_no_record_type_check_witness :
    (isTypingAlias .int = false ∧
     make_dataclass 5 (.base .int) none "X" "Y" false ⟨[], 3⟩
       = (.ok (.dcls 3 ("X" ++ baseName .int ++ "Y") []), ⟨[], 4⟩)) ∧
    (make_dataclass 5 (.generic (.base .list) [.base .int]) none "" "DataClass" false ⟨[], 0⟩
       = (.error .typeError, ⟨[], 0⟩)) ∧
    (make_dataclass 5 (.record "Empty" []) none "" "DataClass" false ⟨[], 0⟩
       = (.ok (.dcls 0 ("" ++ "Empty" ++ "DataClass") []), ⟨[], 1⟩)) :=
  ⟨⟨by rfl, c8_no_record_type_check.1 4 .int none "X" "Y" ⟨[], 3⟩ (by rfl)⟩,
   c8_no_record_type_check.2.1 4 (.base .list) [.base .int] none "" "DataClass" ⟨[], 0⟩,
   c8_no_record_type_check.2.2 4 "Empty" none "" "DataClass" ⟨[], 0⟩⟩

/-- C2 evaluated at the failing input: narrowing an instance of
`Outer(inner: Inner)` holding the nested record instance `Inner(a=1)` leaves
that nested instance completely untouched (it is not converted to a mapping),
and narrowing an instance of `Outer2(xs: list[Inner])` holding `[Inner(a=1)]`
leaves the list elements untouched as well: the source's `value is
NamedTuple` / `value is Iterable` identity tests against the marker objects
are never true for real field values, so the recursive narrowing of steps 2
and 3 of the specification never happens. -/
theorem c2_recursive_narrowing_never_fires :
    (narrow_named_tuple_instance 9
        (.vrecord "Outer" [("inner", .record "Inner" [("a", .base .int)])]
          [.vrecord "Inner" [("a", .base .int)] [.vint 1]]) none
      = .ok [("inner", .vrecord "Inner" [("a", .base .int)] [.vint 1])]) ∧
    (narrow_named_tuple_instance 9
        (.vrecord "Outer2" [("xs", .generic (.base .list) [.record "Inner" [("a", .base .int)]])]
          [.vlist [.vrecord "Inner" [("a", .base .int)] [.vint 1]]]) none
      = .ok [("xs", .vlist [.vrecord "Inner" [("a", .base .int)] [.vint 1]])]) :=
  ⟨by rfl, by rfl⟩

/-- With `use_cache=False` threaded through (which is what `make_dataclass`
always passes to the field rewrite), no function of the rewrite family ever
touches the `_type_cache`. -/
theorem cache_preserved_all : ∀ (fuel : Nat),
    (∀ clz tbl pre suf st,
      ((make_dataclass fuel clz tbl pre suf false st).2).cache = st.cache) ∧
    (∀ fs tbl pre suf st,
      ((rewrite_fields fuel fs tbl pre suf false st).2).cache = st.cache) ∧
    (∀ v tbl pre suf st,
      ((get_target_data_type_dc fuel v tbl pre suf false st).2).cache = st.cache) ∧
    (∀ as tbl pre suf st,
      ((rewrite_args fuel as tbl pre suf false st).2).cache = st.cache) ∧
    (∀ b as tbl pre suf st,
      ((make_generic_type fuel b as tbl pre suf false st).2).cache = st.cache) := by
  intro fuel
  induction fuel with
  | zero =>
    refine ⟨fun clz tbl pre suf st => rfl, fun fs tbl pre suf st => ?_,
            fun v tbl pre suf st => rfl, fun as tbl pre suf st => ?_,
            fun b as tbl pre suf st => rfl⟩
    · cases fs <;> rfl
    · cases as <;> rfl
  | succ n ih =>
    obtain ⟨ihM, ihF, ihT, ihA, ihG⟩ := ih
    refine ⟨?_, ?_, ?_, ?_, ?_⟩
    · intro clz tbl pre suf st
      cases hh : getTypeHints clz with
      | error e => simp [make_dataclass, hh]
      | ok hints =>
        rcases hrw : rewrite_fields n hints tbl "" "" false st with ⟨r, st1⟩
        have hc : st1.cache = st.cache := by
          have h := ihF hints tbl "" "" st; rw [hrw] at h; exact h
        cases r with
        | error e => simp [make_dataclass, hh, hrw, hc]
        | ok fs2 => simp [make_dataclass, hh, hrw, hc]
    · intro fs tbl pre suf st
      cases fs with
      | nil => rfl
      | cons a rest =>
        obtain ⟨k, v⟩ := a
        rcases hv : get_target_data_type_dc n v tbl pre suf false st with ⟨r, st1⟩
        have hc1 : st1.cache = st.cache := by
          have h := ihT v tbl pre suf st; rw [hv] at h; exact h
        cases r with
        | error e => simp [rewrite_fields, hv, hc1]
        | ok v2 =>
          rcases hrest : rewrite_fields n rest tbl pre suf false st1 with ⟨r2, st2⟩
          have hc2 : st2.cache = st1.cache := by
            have h := ihF rest tbl pre suf st1; rw [hrest] at h; exact h
          cases r2 with
          | error e => simp [rewrite_fields, hv, hrest, hc1, hc2]
          | ok rest2 => simp [rewrite_fields, hv, hrest, hc1, hc2]
    · intro v tbl pre suf st
      cases v with
      | base b => simp [get_target_data_type_dc, is_namedtuple_class]
      | dcls i nm fs => simp [get_target_data_type_dc, is_namedtuple_class]
      | record nm fs =>
        have := ihM (.record nm fs) tbl pre suf st
        simpa [get_target_data_type_dc, is_namedtuple_class] using this
      | generic o args =>
        cases args with
        | nil => simp [get_target_data_type_dc, is_namedtuple_class]
        | cons a rest =>
          rcases ha : rewrite_args n (a :: rest) tbl pre suf false st with ⟨r, st1⟩
          have hc1 : st1.cache = st.cache := by
            have h := ihA (a :: rest) tbl pre suf st; rw [ha] at h; exact h
          cases r with
          | error e => simp [get_target_data_type_dc, ha, hc1]
          | ok items =>
            rcases ho : get_target_data_type_dc n
                (match substLookup tbl o with | some t => t | none => o)
                tbl pre suf false st1 with ⟨r2, st2⟩
            have hc2 : st2.cache = st1.cache := by
              have h := ihT (match substLookup tbl o with | some t => t | none => o)
                tbl pre suf st1
              rw [ho] at h; exact h
            cases r2 with
            | error e => simp [get_target_data_type_dc, ha, ho, hc1, hc2]
            | ok origin2 =>
              have hc3 : ((make_generic_type n origin2 items tbl pre suf false st2).2).cache
                  = st2.cache := ihG origin2 items tbl pre suf st2
              simp [get_target_data_type_dc, ha, ho, hc1, hc2, hc3]
    · intro as tbl pre suf st
      cases as with
      | nil => rfl
      | cons a rest =>
        rcases ha : get_target_data_type_dc n a tbl pre suf false st with ⟨r, st1⟩
        have hc1 : st1.cache = st.cache := by
          have h := ihT a tbl pre suf st; rw [ha] at h; exact h
        cases r with
        | error e => simp [rewrite_args, ha, hc1]
        | ok a2 =>
          rcases hrest : rewrite_args n rest tbl pre suf false st1 with ⟨r2, st2⟩
          have hc2 : st2.cache = st1.cache := by
            have h := ihA rest tbl pre suf st1; rw [hrest] at h; exact h
          cases r2 with
          | error e => simp [rewrite_args, ha, hrest, hc1, hc2]
          | ok rest2 => simp [rewrite_args, ha, hrest, hc1, hc2]
    · intro b as tbl pre suf st
      rcases ha : rewrite_args n as tbl pre suf false st with ⟨r, st1⟩
      have hc1 : st1.cache = st.cache := by
        have h := ihA as tbl pre suf st; rw [ha] at h; exact h
      cases r with
      | error e => simp [make_generic_type, ha, hc1]
      | ok args2 => simp [make_generic_type, ha, hc1]

/-- A failed `make_dataclass` call stores nothing: the cache write is the
last step of a successful synthesis, and the nested field rewrite runs with
`use_cache=False`. -/
theorem make_dataclass_error_cache (fuel : Nat) (clz : PyType) (tbl : SubstTable)
    (pre suf : String) (uc : Bool) (st st' : ConvState) (e : PyErr)
    (h : make_dataclass fuel clz tbl pre suf uc st = (.error e, st')) :
    st'.cache = st.cache := by
  cases uc with
  | false =>
    have hc := (cache_preserved_all fuel).1 clz tbl pre suf st
    rw [h] at hc
    exact hc
  | true =>
    cases fuel with
    | zero =>
      simp only [make_dataclass, Prod.mk.injEq, Except.error.injEq] at h
      rw [← h.2]
    | succ n =>
      cases hcache : alookup st.cache clz with
      | some t => simp [make_dataclass, hcache] at h
      | none =>
        cases hh : getTypeHints clz with
        | error e2 =>
          simp only [make_dataclass, hcache, hh, if_true, Prod.mk.injEq,
            Except.error.injEq] at h
          rw [← h.2]
        | ok hints =>
          rcases hrw : rewrite_fields n hints tbl "" "" false st with ⟨r, st1⟩
          have hc : st1.cache = st.cache := by
            have hx := (cache_preserved_all n).2.1 hints tbl "" "" st
            rw [hrw] at hx
            exact hx
          cases r with
          | error e2 =>
            simp only [make_dataclass, hcache, hh, hrw, if_true, Prod.mk.injEq,
              Except.error.injEq] at h
            rw [← h.2]
            exact hc
          | ok fs2 => simp [make_dataclass, hcache, hh, hrw] at h

/-- C7 counterexample: converting the instance `P(a=5)` of the record type
`P(a: int)` with the substitution table `{int: list}` and `use_cache=True`
fails (narrowing calls `list(5)`, a `TypeError`) — yet the call leaves the
freshly synthesized type in the previously empty cache, so the failed
conversion did store something. -/
theorem c7_counterexample_failed_call_caches :
    get_dataclass_object 9 (.vrecord "P" [("a", .base .int)] [.vint 5])
        (some [(.base .int, .base .list)]) true ⟨[], 0⟩
      = (.error .typeError,
         ⟨[(.record "P" [("a", .base .int)], .dcls 0 "PDataClass" [("a", .base .int)])], 1⟩) := by
  rfl

/-- C7 (amended): a failed `make_dataclass` call stores nothing in the type
cache — the store is the final step of a successful synthesis only.  However
`get_dataclass_object` runs the type-level phase (cache store included)
before the value-level phase, so when narrowing or construction fails after
a successful type synthesis with `use_cache=True`, the synthesized type
remains cached (see the counterexample). -/
theorem c7_make_dataclass_error_atomic (fuel : Nat) (clz : PyType)
    (tbl : SubstTable) (pre suf : String) (uc : Bool) (st st' : ConvState)
    (e : PyErr)
    (h : make_dataclass fuel clz tbl pre suf uc st = (.error e, st')) :
    st'.cache = st.cache :=
  make_dataclass_error_cache fuel clz tbl pre suf uc st st' e h

theorem c7_make_dataclass_error_atomic_witness :
    (make_dataclass 5 (.generic (.base .list) [.base .int]) none "" "DataClass" true
        ⟨[(.base .int, .dcls 3 "Q" [])], 2⟩
      = (.error .typeError, ⟨[(.base .int, .dcls 3 "Q" [])], 2⟩)) ∧
    (ConvState.mk [(.base .int, .dcls 3 "Q" [])] 2).cache
      = (ConvState.mk [(.base .int, .dcls 3 "Q" [])] 2).cache :=
  ⟨by rfl,
   c7_make_dataclass_error_atomic 5 (.generic (.base .list) [.base .int]) none ""
     "DataClass" true ⟨[(.base .int, .dcls 3 "Q" [])], 2⟩
     ⟨[(.base .int, .dcls 3 "Q" [])], 2⟩ .typeError (by rfl)⟩

/-- The identity allocator only moves forward: no function of the family ever
decreases the counter. -/
theorem counter_mono_all : ∀ (fuel : Nat),
    (∀ clz tbl pre suf uc st,
      st.counter ≤ ((make_dataclass fuel clz tbl pre suf uc st).2).counter) ∧
    (∀ fs tbl pre suf uc st,
      st.counter ≤ ((rewrite_fields fuel fs tbl pre suf uc st).2).counter) ∧
    (∀ v tbl pre suf uc st,
      st.counter ≤ ((get_target_data_type_dc fuel v tbl pre suf uc st).2).counter) ∧
    (∀ as tbl pre suf uc st,
      st.counter ≤ ((rewrite_args fuel as tbl pre suf uc st).2).counter) ∧
    (∀ b as tbl pre suf uc st,
      st.counter ≤ ((make_generic_type fuel b as tbl pre suf uc st).2).counter) := by
  intro fuel
  induction fuel with
  | zero =>
    refine ⟨fun clz tbl pre suf uc st => Nat.le_refl _,
            fun fs tbl pre suf uc st => ?_,
            fun v tbl pre suf uc st => Nat.le_refl _,
            fun as tbl pre suf uc st => ?_,
            fun b as tbl pre suf uc st => Nat.le_refl _⟩
    · cases fs <;> exact Nat.le_refl _
    · cases as <;> exact Nat.le_refl _
  | succ n ih =>
    obtain ⟨ihM, ihF, ihT, ihA, ihG⟩ := ih
    refine ⟨?_, ?_, ?_, ?_, ?_⟩
    · intro clz tbl pre suf uc st
      cases hcache : (if uc then alookup st.cache clz else none) with
      | some t => simp [make_dataclass, hcache]
      | none =>
        cases hh : getTypeHints clz with
        | error e => simp [make_dataclass, hcache, hh]
        | ok hints =>
          rcases hrw : rewrite_fields n hints tbl "" "" false st with ⟨r, st1⟩
          have hc : st.counter ≤ st1.counter := by
            have h := ihF hints tbl "" "" false st; rw [hrw] at h; exact h
          cases r with
          | error e => simp only [make_dataclass, hcache, hh, hrw]; exact hc
          | ok fs2 =>
            simp only [make_dataclass, hcache, hh, hrw]
            cases uc <;> simp <;> omega
    · intro fs tbl pre suf uc st
      cases fs with
      | nil => exact Nat.le_refl _
      | cons a rest =>
        obtain ⟨k, v⟩ := a
        rcases hv : get_target_data_type_dc n v tbl pre suf uc st with ⟨r, st1⟩
        have hc1 : st.counter ≤ st1.counter := by
          have h := ihT v tbl pre suf uc st; rw [hv] at h; exact h
        cases r with
        | error e => simp only [rewrite_fields, hv]; exact hc1
        | ok v2 =>
          rcases hrest : rewrite_fields n rest tbl pre suf uc st1 with ⟨r2, st2⟩
          have hc2 : st1.counter ≤ st2.counter := by
            have h := ihF rest tbl pre suf uc st1; rw [hrest] at h; exact h
          cases r2 with
          | error e => simp only [rewrite_fields, hv, hrest]; omega
          | ok rest2 => simp only [rewrite_fields, hv, hrest]; omega
    · intro v tbl pre suf uc st
      cases v with
      | base b => simp [get_target_data_type_dc, is_namedtuple_class]
      | dcls i nm fs => simp [get_target_data_type_dc, is_namedtuple_class]
      | record nm fs =>
        have := ihM (.record nm fs) tbl pre suf uc st
        simpa [get_target_data_type_dc, is_namedtuple_class] using this
      | generic o args =>
        cases args with
        | nil => simp [get_target_data_type_dc, is_namedtuple_class]
        | cons a rest =>
          rcases ha : rewrite_args n (a :: rest) tbl pre suf uc st with ⟨r, st1⟩
          have hc1 : st.counter ≤ st1.counter := by
            have h := ihA (a :: rest) tbl pre suf uc st; rw [ha] at h; exact h
          cases r with
          | error e => simp only [get_target_data_type_dc, ha]; exact hc1
          | ok items =>
            rcases ho : get_target_data_type_dc n
                (match substLookup tbl o with | some t => t | none => o)
                tbl pre suf uc st1 with ⟨r2, st2⟩
            have hc2 : st1.counter ≤ st2.counter := by
              have h := ihT (match substLookup tbl o with | some t => t | none => o)
                tbl pre suf uc st1
              rw [ho] at h; exact h
            cases r2 with
            | error e => simp only [get_target_data_type_dc, ha, ho]; omega
            | ok origin2 =>
              have hc3 : st2.counter
                  ≤ ((make_generic_type n origin2 items tbl pre suf uc st2).2).counter :=
                ihG origin2 items tbl pre suf uc st2
              simp only [get_target_data_type_dc, ha, ho]
              omega
    · intro as tbl pre suf uc st
      cases as with
      | nil => exact Nat.le_refl _
      | cons a rest =>
        rcases ha : get_target_data_type_dc n a tbl pre suf uc st with ⟨r, st1⟩
        have hc1 : st.counter ≤ st1.counter := by
          have h := ihT a tbl pre suf uc st; rw [ha] at h; exact h
        cases r with
        | error e => simp only [rewrite_args, ha]; exact hc1
        | ok a2 =>
          rcases hrest : rewrite_args n rest tbl pre suf uc st1 with ⟨r2, st2⟩
          have hc2 : st1.counter ≤ st2.counter := by
            have h := ihA rest tbl pre suf uc st1; rw [hrest] at h; exact h
          cases r2 with
          | error e => simp only [rewrite_args, ha, hrest]; omega
          | ok rest2 => simp only [rewrite_args, ha, hrest]; omega
    · intro b as tbl pre suf uc st
      rcases ha : rewrite_args n as tbl pre suf uc st with ⟨r, st1⟩
      have hc1 : st.counter ≤ st1.counter := by
        have h := ihA as tbl pre suf uc st; rw [ha] at h; exact h
      cases r with
      | error e => simp only [make_generic_type, ha]; exact hc1
      | ok args2 => simp only [make_generic_type, ha]; exact hc1

/-- Types with equal erasure agree on everything `make_dataclass` and
`_get_target_data_type_dc` inspect apart from identities: type hints (up to
erasure), `__name__`, and the structural record-type test. -/
theorem erase_eq_inv (c1 c2 : PyType) (h : erase c1 = erase c2) :
    (getTypeHints c1).map eraseFields = (getTypeHints c2).map eraseFields ∧
    nameOf c1 = nameOf c2 ∧
    is_namedtuple_class c1 = is_namedtuple_class c2 := by
  cases c1 with
  | base b1 =>
    cases c2 with
    | base b2 =>
      simp only [erase, PyType.base.injEq] at h
      subst h
      exact ⟨rfl, rfl, rfl⟩
    | generic o2 a2 => simp [erase] at h
    | record n2 f2 => simp [erase] at h
    | dcls i2 n2 f2 => simp [erase] at h
  | generic o1 a1 =>
    cases c2 with
    | base b2 => simp [erase] at h
    | generic o2 a2 => exact ⟨rfl, rfl, rfl⟩
    | record n2 f2 => simp [erase] at h
    | dcls i2 n2 f2 => simp [erase] at h
  | record n1 f1 =>
    cases c2 with
    | base b2 => simp [erase] at h
    | generic o2 a2 => simp [erase] at h
    | record n2 f2 =>
      simp only [erase, PyType.record.injEq] at h
      exact ⟨by simp [getTypeHints, Except.map, h.2], by simp [nameOf, h.1], rfl⟩
    | dcls i2 n2 f2 => simp [erase] at h
  | dcls i1 n1 f1 =>
    cases c2 with
    | base b2 => simp [erase] at h
    | generic o2 a2 => simp [erase] at h
    | record n2 f2 => simp [erase] at h
    | dcls i2 n2 f2 =>
      simp only [erase, PyType.dcls.injEq] at h
      exact ⟨by simp [getTypeHints, Except.map, h.2.2], by simp [nameOf, h.2.1], rfl⟩

/-- Without a substitution table and without caching, the result of every
function of the rewrite family is — after identity erasure — a function of
the (erased) inputs alone: the state influences only the allocated
identities, and the success/failure outcome is state-independent. -/
theorem erase_independent : ∀ (fuel : Nat),
    (∀ c1 c2 pre suf st1 st2, erase c1 = erase c2 →
      eraseRes (make_dataclass fuel c1 none pre suf false st1)
        = eraseRes (make_dataclass fuel c2 none pre suf false st2)) ∧
    (∀ fs1 fs2 pre suf st1 st2, eraseFields fs1 = eraseFields fs2 →
      eraseResF (rewrite_fields fuel fs1 none pre suf false st1)
        = eraseResF (rewrite_fields fuel fs2 none pre suf false st2)) ∧
    (∀ v1 v2 pre suf st1 st2, erase v1 = erase v2 →
      eraseRes (get_target_data_type_dc fuel v1 none pre suf false st1)
        = eraseRes (get_target_data_type_dc fuel v2 none pre suf false st2)) ∧
    (∀ as1 as2 pre suf st1 st2, eraseList as1 = eraseList as2 →
      eraseResL (rewrite_args fuel as1 none pre suf false st1)
        = eraseResL (rewrite_args fuel as2 none pre suf false st2)) ∧
    (∀ b1 b2 as1 as2 pre suf st1 st2, erase b1 = erase b2 →
      eraseList as1 = eraseList as2 →
      eraseRes (make_generic_type fuel b1 as1 none pre suf false st1)
        = eraseRes (make_generic_type fuel b2 as2 none pre suf false st2)) := by
  intro fuel
  induction fuel with
  | zero =>
    refine ⟨fun c1 c2 pre suf st1 st2 h => rfl,
            fun fs1 fs2 pre suf st1 st2 h => ?_,
            fun v1 v2 pre suf st1 st2 h => rfl,
            fun as1 as2 pre suf st1 st2 h => ?_,
            fun b1 b2 as1 as2 pre suf st1 st2 h1 h2 => rfl⟩
    · cases fs1 with
      | nil =>
        cases fs2 with
        | nil => rfl
        | cons a2 r2 => obtain ⟨k2, v2⟩ := a2; simp [eraseFields] at h
      | cons a1 r1 =>
        obtain ⟨k1, v1⟩ := a1
        cases fs2 with
        | nil => simp [eraseFields] at h
        | cons a2 r2 => obtain ⟨k2, v2⟩ := a2; rfl
    · cases as1 with
      | nil =>
        cases as2 with
        | nil => rfl
        | cons a2 r2 => simp [eraseList] at h
      | cons a1 r1 =>
        cases as2 with
        | nil => simp [eraseList] at h
        | cons a2 r2 => rfl
  | succ n ih =>
    obtain ⟨ihM, ihF, ihT, ihA, ihG⟩ := ih
    refine ⟨?_, ?_, ?_, ?_, ?_⟩
    · -- make_dataclass
      intro c1 c2 pre suf st1 st2 h
      obtain ⟨hhints, hname, _⟩ := erase_eq_inv c1 c2 h
      cases hg1 : getTypeHints c1 with
      | error e1 =>
        cases hg2 : getTypeHints c2 with
        | error e2 =>
          rw [hg1, hg2] at hhints
          simp only [Except.map, Except.error.injEq] at hhints
          subst hhints
          simp [make_dataclass, hg1, hg2, eraseRes]
        | ok hs2 =>
          rw [hg1, hg2] at hhints
          simp [Except.map] at hhints
      | ok hs1 =>
        cases hg2 : getTypeHints c2 with
        | error e2 =>
          rw [hg1, hg2] at hhints
          simp [Except.map] at hhints
        | ok hs2 =>
          rw [hg1, hg2] at hhints
          simp only [Except.map, Except.ok.injEq] at hhints
          have hF := ihF hs1 hs2 "" "" st1 st2 hhints
          rcases hr1 : rewrite_fields n hs1 none "" "" false st1 with ⟨r1, s1⟩
          rcases hr2 : rewrite_fields n hs2 none "" "" false st2 with ⟨r2, s2⟩
          rw [hr1, hr2] at hF
          cases r1 with
          | error e1 =>
            cases r2 with
            | error e2 =>
              simp only [eraseResF, Except.map, Except.error.injEq] at hF
              subst hF
              simp [make_dataclass, hg1, hg2, hr1, hr2, eraseRes]
            | ok f2 => simp [eraseResF, Except.map] at hF
          | ok f1 =>
            cases r2 with
            | error e2 => simp [eraseResF, Except.map] at hF
            | ok f2 =>
              simp only [eraseResF, Except.map, Except.ok.injEq] at hF
              simp [make_dataclass, hg1, hg2, hr1, hr2, eraseRes, Except.map,
                erase, hF, hname]
    · -- rewrite_fields
      intro fs1 fs2 pre suf st1 st2 h
      cases fs1 with
      | nil =>
        cases fs2 with
        | nil => rfl
        | cons a2 r2 => obtain ⟨k2, v2⟩ := a2; simp [eraseFields] at h
      | cons a1 r1 =>
        obtain ⟨k1, v1⟩ := a1
        cases fs2 with
        | nil => simp [eraseFields] at h
        | cons a2 r2 =>
          obtain ⟨k2, v2⟩ := a2
          simp only [eraseFields, List.cons.injEq, Prod.mk.injEq] at h
          obtain ⟨⟨hk, hv⟩, hr⟩ := h
          subst hk
          have hT := ihT v1 v2 pre suf st1 st2 hv
          rcases h1 : get_target_data_type_dc n v1 none pre suf false st1 with ⟨x1, s1⟩
          rcases h2 : get_target_data_type_dc n v2 none pre suf false st2 with ⟨x2, s2⟩
          rw [h1, h2] at hT
          cases x1 with
          | error e1 =>
            cases x2 with
            | error e2 =>
              simp only [eraseRes, Except.map, Except.error.injEq] at hT
              subst hT
              simp [rewrite_fields, h1, h2, eraseResF]
            | ok w2 => simp [eraseRes, Except.map] at hT
          | ok w1 =>
            cases x2 with
            | error e2 => simp [eraseRes, Except.map] at hT
            | ok w2 =>
              simp only [eraseRes, Except.map, Except.ok.injEq] at hT
              have hFr := ihF r1 r2 pre suf s1 s2 hr
              rcases hq1 : rewrite_fields n r1 none pre suf false s1 with ⟨y1, t1⟩
              rcases hq2 : rewrite_fields n r2 none pre suf false s2 with ⟨y2, t2⟩
              rw [hq1, hq2] at hFr
              cases y1 with
              | error e1 =>
                cases y2 with
                | error e2 =>
                  simp only [eraseResF, Except.map, Except.error.injEq] at hFr
                  subst hFr
                  simp [rewrite_fields, h1, h2, hq1, hq2, eraseResF]
                | ok z2 => simp [eraseResF, Except.map] at hFr
              | ok z1 =>
                cases y2 with
                | error e2 => simp [eraseResF, Except.map] at hFr
                | ok z2 =>
                  simp only [eraseResF, Except.map, Except.ok.injEq] at hFr
                  simp [rewrite_fields, h1, h2, hq1, hq2, eraseResF, Except.map,
                    eraseFields, hT, hFr]
    · -- get_target_data_type_dc
      intro v1 v2 pre suf st1 st2 h
      cases v1 with
      | base b1 =>
        cases v2 with
        | base b2 =>
          simp only [erase, PyType.base.injEq] at h
          subst h
          simp [get_target_data_type_dc, is_namedtuple_class, eraseRes]
        | generic o2 a2 => simp [erase] at h
        | record n2 f2 => simp [erase] at h
        | dcls i2 n2 f2 => simp [erase] at h
      | dcls i1 nm1 f1 =>
        cases v2 with
        | base b2 => simp [erase] at h
        | generic o2 a2 => simp [erase] at h
        | record n2 f2 => simp [erase] at h
        | dcls i2 n2 f2 =>
          simp only [erase, PyType.dcls.injEq, true_and] at h
          simp [get_target_data_type_dc, is_namedtuple_class, eraseRes, Except.map,
            erase, h.1, h.2]
      | record nm1 f1 =>
        cases v2 with
        | base b2 => simp [erase] at h
        | generic o2 a2 => simp [erase] at h
        | dcls i2 n2 f2 => simp [erase] at h
        | record n2 f2 =>
          have hM := ihM (.record nm1 f1) (.record n2 f2) pre suf st1 st2 h
          simpa [get_target_data_type_dc, is_namedtuple_class] using hM
      | generic o1 a1 =>
        cases v2 with
        | base b2 => simp [erase] at h
        | record n2 f2 => simp [erase] at h
        | dcls i2 n2 f2 => simp [erase] at h
        | generic o2 a2 =>
          simp only [erase, PyType.generic.injEq] at h
          obtain ⟨ho, ha⟩ := h
          cases a1 with
          | nil =>
            cases a2 with
            | nil =>
              simp [get_target_data_type_dc, is_namedtuple_class, eraseRes,
                Except.map, erase, eraseList, ho]
            | cons x2 y2 => simp [eraseList] at ha
          | cons x1 y1 =>
            cases a2 with
            | nil => simp [eraseList] at ha
            | cons x2 y2 =>
              have hA := ihA (x1 :: y1) (x2 :: y2) pre suf st1 st2 ha
              rcases hp1 : rewrite_args n (x1 :: y1) none pre suf false st1 with ⟨r1, s1⟩
              rcases hp2 : rewrite_args n (x2 :: y2) none pre suf false st2 with ⟨r2, s2⟩
              rw [hp1, hp2] at hA
              cases r1 with
              | error e1 =>
                cases r2 with
                | error e2 =>
                  simp only [eraseResL, Except.map, Except.error.injEq] at hA
                  subst hA
                  simp [get_target_data_type_dc, hp1, hp2, eraseRes]
                | ok i2 => simp [eraseResL, Except.map] at hA
              | ok items1 =>
                cases r2 with
                | error e2 => simp [eraseResL, Except.map] at hA
                | ok items2 =>
                  simp only [eraseResL, Except.map, Except.ok.injEq] at hA
                  have hT := ihT o1 o2 pre suf s1 s2 ho
                  rcases hq1 : get_target_data_type_dc n o1 none pre suf false s1 with ⟨w1, t1⟩
                  rcases hq2 : get_target_data_type_dc n o2 none pre suf false s2 with ⟨w2, t2⟩
                  rw [hq1, hq2] at hT
                  cases w1 with
                  | error e1 =>
                    cases w2 with
                    | error e2 =>
                      simp only [eraseRes, Except.map, Except.error.injEq] at hT
                      subst hT
                      simp [get_target_data_type_dc, hp1, hp2, hq1, hq2, substLookup,
                        eraseRes]
                    | ok u2 => simp [eraseRes, Except.map] at hT
                  | ok u1 =>
                    cases w2 with
                    | error e2 => simp [eraseRes, Except.map] at hT
                    | ok u2 =>
                      simp only [eraseRes, Except.map, Except.ok.injEq] at hT
                      have hG := ihG u1 u2 items1 items2 pre suf t1 t2 hT hA
                      simp only [get_target_data_type_dc, hp1, hp2, substLookup, hq1, hq2]
                      exact hG
    · -- rewrite_args
      intro as1 as2 pre suf st1 st2 h
      cases as1 with
      | nil =>
        cases as2 with
        | nil => rfl
        | cons x2 y2 => simp [eraseList] at h
      | cons x1 y1 =>
        cases as2 with
        | nil => simp [eraseList] at h
        | cons x2 y2 =>
          simp only [eraseList, List.cons.injEq] at h
          obtain ⟨hx, hy⟩ := h
          have hT := ihT x1 x2 pre suf st1 st2 hx
          rcases h1 : get_target_data_type_dc n x1 none pre suf false st1 with ⟨r1, s1⟩
          rcases h2 : get_target_data_type_dc n x2 none pre suf false st2 with ⟨r2, s2⟩
          rw [h1, h2] at hT
          cases r1 with
          | error e1 =>
            cases r2 with
            | error e2 =>
              simp only [eraseRes, Except.map, Except.error.injEq] at hT
              subst hT
              simp [rewrite_args, h1, h2, eraseResL]
            | ok w2 => simp [eraseRes, Except.map] at hT
          | ok w1 =>
            cases r2 with
            | error e2 => simp [eraseRes, Except.map] at hT
            | ok w2 =>
              simp only [eraseRes, Except.map, Except.ok.injEq] at hT
              have hAr := ihA y1 y2 pre suf s1 s2 hy
              rcases hq1 : rewrite_args n y1 none pre suf false s1 with ⟨z1, t1⟩
              rcases hq2 : rewrite_args n y2 none pre suf false s2 with ⟨z2, t2⟩
              rw [hq1, hq2] at hAr
              cases z1 with
              | error e1 =>
                cases z2 with
                | error e2 =>
                  simp only [eraseResL, Except.map, Except.error.injEq] at hAr
                  subst hAr
                  simp [rewrite_args, h1, h2, hq1, hq2, eraseResL]
                | ok q2 => simp [eraseResL, Except.map] at hAr
              | ok q1 =>
                cases z2 with
                | error e2 => simp [eraseResL, Except.map] at hAr
                | ok q2 =>
                  simp only [eraseResL, Except.map, Except.ok.injEq] at hAr
                  simp [rewrite_args, h1, h2, hq1, hq2, eraseResL, Except.map,
                    eraseList, hT, hAr]
    · -- make_generic_type
      intro b1 b2 as1 as2 pre suf st1 st2 hb ha
      have hA := ihA as1 as2 pre suf st1 st2 ha
      rcases h1 : rewrite_args n as1 none pre suf false st1 with ⟨r1, s1⟩
      rcases h2 : rewrite_args n as2 none pre suf false st2 with ⟨r2, s2⟩
      rw [h1, h2] at hA
      cases r1 with
      | error e1 =>
        cases r2 with
        | error e2 =>
          simp only [eraseResL, Except.map, Except.error.injEq] at hA
          subst hA
          simp [make_generic_type, h1, h2, eraseRes]
        | ok w2 => simp [eraseResL, Except.map] at hA
      | ok w1 =>
        cases r2 with
        | error e2 => simp [eraseResL, Except.map] at hA
        | ok w2 =>
          simp only [eraseResL, Except.map, Except.ok.injEq] at hA
          simp [make_generic_type, h1, h2, eraseRes, Except.map, erase, hA, hb]

/-- C5: idempotent caching, for `make_dataclass(R)` with its default
substitution table (`None` on this runtime), prefix and suffix.  With
`use_cache=True`, two successive calls return the identical (same-identity,
hence equal in the model) target type, the second leaving the state
untouched.  With `use_cache=False`, two successive calls return dataclasses
with distinct identities — so distinct type objects — that are structurally
equal: same synthesized name, same field names in the same order (both equal
to `R`'s), and identical up to identity erasure (same field types). -/
theorem c5_idempotent_caching :
    (∀ (f1 f2 : Nat) (n : String) (fs : List (String × PyType))
       (st st' : ConvState) (T : PyType),
       make_dataclass f1 (.record n fs) none "" "DataClass" true st = (.ok T, st') →
       make_dataclass (f2+1) (.record n fs) none "" "DataClass" true st' = (.ok T, st')) ∧
    (∀ (fuel : Nat) (n : String) (fs : List (String × PyType))
       (st st1 st2 : ConvState) (T1 T2 : PyType),
       make_dataclass fuel (.record n fs) none "" "DataClass" false st = (.ok T1, st1) →
       make_dataclass fuel (.record n fs) none "" "DataClass" false st1 = (.ok T2, st2) →
       T1 ≠ T2 ∧ erase T1 = erase T2 ∧
       ∃ (i1 i2 : Nat) (fl1 fl2 : List (String × PyType)),
         T1 = .dcls i1 ("" ++ n ++ "DataClass") fl1 ∧
         T2 = .dcls i2 ("" ++ n ++ "DataClass") fl2 ∧
         i1 ≠ i2 ∧
         fl1.map Prod.fst = fs.map Prod.fst ∧
         fl2.map Prod.fst = fs.map Prod.fst) := by
  constructor
  · intro f1 f2 n fs st st' T h
    exact make_dataclass_hit f2 (.record n fs) T none "" "DataClass" st'
      (make_dataclass_store f1 (.record n fs) none "" "DataClass" st st' T h)
  · intro fuel n fs st st1 st2 T1 T2 h1 h2
    have hE := (erase_independent fuel).1 (.record n fs) (.record n fs)
      "" "DataClass" st st1 rfl
    rw [h1, h2] at hE
    simp only [eraseRes, Except.map, Except.ok.injEq] at hE
    obtain ⟨m1, hints1, fl1, s1, hf1, hg1, hrw1, hT1, hst1⟩ :=
      make_dataclass_false_ok fuel (.record n fs) none "" "DataClass" st st1 T1 h1
    obtain ⟨m2, hints2, fl2, s2, hf2, hg2, hrw2, hT2, hst2⟩ :=
      make_dataclass_false_ok fuel (.record n fs) none "" "DataClass" st1 st2 T2 h2
    simp only [getTypeHints, Except.ok.injEq] at hg1 hg2
    subst hg1
    subst hg2
    have hmono : st1.counter ≤ s2.counter := by
      have hx := (counter_mono_all m2).2.1 fs none "" "" false st1
      rw [hrw2] at hx
      exact hx
    have hcnt1 : st1.counter = s1.counter + 1 := by rw [hst1]
    have hne : s1.counter ≠ s2.counter := by omega
    refine ⟨?_, hE, s1.counter, s2.counter, fl1, fl2, ?_, ?_, hne, ?_, ?_⟩
    · intro hcontra
      rw [hT1, hT2] at hcontra
      injection hcontra with hi _ _
      exact hne hi
    · simpa [nameOf] using hT1
    · simpa [nameOf] using hT2
    · exact rewrite_fields_names m1 fs none "" "" false st s1 fl1 hrw1
    · exact rewrite_fields_names m2 fs none "" "" false st1 s2 fl2 hrw2

theorem c5_idempotent_caching_witness :
    (make_dataclass 9 (.record "S" [("a", PyType.base .int)]) none "" "DataClass" true ⟨[], 0⟩
       = (.ok (.dcls 0 "SDataClass" [("a", PyType.base .int)]),
          ⟨[(.record "S" [("a", PyType.base .int)], .dcls 0 "SDataClass" [("a", PyType.base .int)])], 1⟩) ∧
     make_dataclass 10 (.record "S" [("a", PyType.base .int)]) none "" "DataClass" true
         ⟨[(.record "S" [("a", PyType.base .int)], .dcls 0 "SDataClass" [("a", PyType.base .int)])], 1⟩
       = (.ok (.dcls 0 "SDataClass" [("a", PyType.base .int)]),
          ⟨[(.record "S" [("a", PyType.base .int)], .dcls 0 "SDataClass" [("a", PyType.base .int)])], 1⟩)) ∧
    (make_dataclass 9 (.record "S" [("a", PyType.base .int)]) none "" "DataClass" false ⟨[], 0⟩
       = (.ok (.dcls 0 "SDataClass" [("a", PyType.base .int)]), ⟨[], 1⟩) ∧
     make_dataclass 9 (.record "S" [("a", PyType.base .int)]) none "" "DataClass" false ⟨[], 1⟩
       = (.ok (.dcls 1 "SDataClass" [("a", PyType.base .int)]), ⟨[], 2⟩) ∧
     (PyType.dcls 0 "SDataClass" [("a", PyType.base .int)]
        ≠ PyType.dcls 1 "SDataClass" [("a", PyType.base .int)]) ∧
     erase (.dcls 0 "SDataClass" [("a", PyType.base .int)])
       = erase (.dcls 1 "SDataClass" [("a", PyType.base .int)])) :=
  ⟨⟨by rfl,
    c5_idempotent_caching.1 9 9 "S" [("a", PyType.base .int)] ⟨[], 0⟩
      ⟨[(.record "S" [("a", PyType.base .int)], .dcls 0 "SDataClass" [("a", PyType.base .int)])], 1⟩
      (.dcls 0 "SDataClass" [("a", PyType.base .int)]) (by rfl)⟩,
   by
    refine ⟨by rfl, by rfl, ?_, ?_⟩
    · exact (c5_idempotent_caching.2 9 "S" [("a", PyType.base .int)] ⟨[], 0⟩ ⟨[], 1⟩ ⟨[], 2⟩
        (.dcls 0 "SDataClass" [("a", PyType.base .int)])
        (.dcls 1 "SDataClass" [("a", PyType.base .int)]) (by rfl) (by rfl)).1
    · exact (c5_idempotent_caching.2 9 "S" [("a", PyType.base .int)] ⟨[], 0⟩ ⟨[], 1⟩ ⟨[], 2⟩
        (.dcls 0 "SDataClass" [("a", PyType.base .int)])
        (.dcls 1 "SDataClass" [("a", PyType.base .int)]) (by rfl) (by rfl)).2.1⟩

/-- Pointwise provenance of a successful `rewrite_args` run: each output
element is the rewrite of the corresponding input element, at some
intermediate states and budgets, in the same position. -/
theorem rewrite_args_forall2 : ∀ (fuel : Nat) (as : List PyType)
    (tbl : SubstTable) (pre suf : String) (uc : Bool) (st st' : ConvState)
    (ys : List PyType),
    rewrite_args fuel as tbl pre suf uc st = (.ok ys, st') →
    List.Forall₂ (fun a b => ∃ f s1 s2,
      get_target_data_type_dc f a tbl pre suf uc s1 = (.ok b, s2)) as ys := by
  intro fuel
  induction fuel with
  | zero =>
    intro as tbl pre suf uc st st' ys h
    cases as with
    | nil =>
      simp only [rewrite_args, Prod.mk.injEq, Except.ok.injEq] at h
      rw [← h.1]
      exact List.Forall₂.nil
    | cons a rest => simp [rewrite_args] at h
  | succ n ih =>
    intro as tbl pre suf uc st st' ys h
    cases as with
    | nil =>
      simp only [rewrite_args, Prod.mk.injEq, Except.ok.injEq] at h
      rw [← h.1]
      exact List.Forall₂.nil
    | cons a rest =>
      rcases ha : get_target_data_type_dc n a tbl pre suf uc st with ⟨r, s1⟩
      cases r with
      | error e => simp [rewrite_args, ha] at h
      | ok a2 =>
        rcases hrest : rewrite_args n rest tbl pre suf uc s1 with ⟨r2, s2⟩
        cases r2 with
        | error e => simp [rewrite_args, ha, hrest] at h
        | ok rest2 =>
          simp only [rewrite_args, ha, hrest, Prod.mk.injEq, Except.ok.injEq] at h
          rw [← h.1]
          exact List.Forall₂.cons ⟨n, st, s1, ha⟩
            (ih rest tbl pre suf uc s1 s2 rest2 hrest)

/-- Composing two pointwise relations along the middle list. -/
theorem forall2_trans {α β γ : Type} {R : α → β → Prop} {S : β → γ → Prop}
    {T : α → γ → Prop} (hc : ∀ a b c, R a b → S b c → T a c) :
    ∀ {xs : List α} {ys : List β} {zs : List γ},
      List.Forall₂ R xs ys → List.Forall₂ S ys zs → List.Forall₂ T xs zs := by
  intro xs
  induction xs with
  | nil =>
    intro ys zs h1 h2
    cases h1
    cases h2
    exact List.Forall₂.nil
  | cons x xs ihx =>
    intro ys zs h1 h2
    cases h1 with
    | cons hxy h1' =>
      cases h2 with
      | cons hyz h2' =>
        exact List.Forall₂.cons (hc _ _ _ hxy hyz) (ihx h1' h2')

/-- C6: rewriting a generic application with `n` ordered type arguments
produces a generic application with exactly `n` arguments in the same
positional order; the rewrite only substitutes (and rewrites) the base type
and rewrites each argument in place — `ElemRewrite` records that output
argument `i` arises from input argument `i` by the source's two rewriting
passes. -/
theorem c6_generic_arity_order (fuel : Nat) (o a : PyType) (rest : List PyType)
    (tbl : SubstTable) (pre suf : String) (uc : Bool) (st st' : ConvState)
    (T : PyType)
    (h : get_target_data_type_dc (fuel+1) (.generic o (a :: rest)) tbl pre suf uc st
      = (.ok T, st')) :
    ∃ (o2 : PyType) (args2 : List PyType),
      T = .generic o2 args2 ∧
      args2.length = (a :: rest).length ∧
      List.Forall₂ (ElemRewrite tbl pre suf uc) (a :: rest) args2 ∧
      ∃ (f : Nat) (s1 s2 : ConvState),
        get_target_data_type_dc f ((substLookup tbl o).getD o) tbl pre suf uc s1
          = (.ok o2, s2) := by
  rcases hp : rewrite_args fuel (a :: rest) tbl pre suf uc st with ⟨r, s1⟩
  cases r with
  | error e => simp [get_target_data_type_dc, hp] at h
  | ok items =>
    rcases ho : get_target_data_type_dc fuel
        (match substLookup tbl o with | some t => t | none => o)
        tbl pre suf uc s1 with ⟨r2, s2⟩
    cases r2 with
    | error e => simp [get_target_data_type_dc, hp, ho] at h
    | ok o2 =>
      simp only [get_target_data_type_dc, hp, ho] at h
      cases fuel with
      | zero => simp [make_generic_type] at h
      | succ m =>
        rcases hq : rewrite_args m items tbl pre suf uc s2 with ⟨r3, s3⟩
        cases r3 with
        | error e => simp [make_generic_type, hq] at h
        | ok args2 =>
          simp only [make_generic_type, hq, Prod.mk.injEq, Except.ok.injEq] at h
          have hF1 := rewrite_args_forall2 (m+1) (a :: rest) tbl pre suf uc st s1 items hp
          have hF2 := rewrite_args_forall2 m items tbl pre suf uc s2 s3 args2 hq
          have hF : List.Forall₂ (ElemRewrite tbl pre suf uc) (a :: rest) args2 := by
            refine forall2_trans ?_ hF1 hF2
            rintro x y z ⟨f1, u1, u2, hxy⟩ ⟨f2, u3, u4, hyz⟩
            exact ElemRewrite.step x y z f1 f2 u1 u2 u3 u4 hxy hyz
          refine ⟨o2, args2, h.1.symm, (List.Forall₂.length_eq hF).symm, hF,
            m+1, s1, s2, ?_⟩
          cases hsub : substLookup tbl o with
          | none => rw [hsub] at ho; simpa using ho
          | some t => rw [hsub] at ho; simpa using ho

theorem c6_generic_arity_order_witness :
    (get_target_data_type_dc 9
        (.generic (.base .tuple) [.base .int, .base .float, .base .bool])
        none "" "" false ⟨[], 0⟩
      = (.ok (.generic (.base .tuple) [.base .int, .base .float, .base .bool]), ⟨[], 0⟩)) ∧
    (∃ (o2 : PyType) (args2 : List PyType),
      (PyType.generic (.base .tuple) [.base .int, .base .float, .base .bool])
        = .generic o2 args2 ∧
      args2.length = ([.base .int, .base .float, .base .bool] : List PyType).length ∧
      List.Forall₂ (ElemRewrite none "" "" false)
        [PyType.base .int, .base .float, .base .bool] args2 ∧
      ∃ (f : Nat) (s1 s2 : ConvState),
        get_target_data_type_dc f ((substLookup none (.base .tuple)).getD (.base .tuple))
          none "" "" false s1 = (.ok o2, s2)) :=
  ⟨by rfl,
   c6_generic_arity_order 8 (.base .tuple) (.base .int) [.base .float, .base .bool]
     none "" "" false ⟨[], 0⟩ ⟨[], 0⟩
     (.generic (.base .tuple) [.base .int, .base .float, .base .bool]) (by rfl)⟩

/-! ## Lemmas about the value level -/

mutual

theorem beqPyVal_refl : (v : PyVal) → beqPyVal v v = true
  | .vint n => by simp [beqPyVal]
  | .vfloat q => by simp [beqPyVal]
  | .vbool b => by simp [beqPyVal]
  | .vstr s => by simp [beqPyVal]
  | .vnone => by simp [beqPyVal]
  | .vlist xs => by simpa [beqPyVal] using beqPyValList_refl xs
  | .vtuple xs => by simpa [beqPyVal] using beqPyValList_refl xs
  | .vset xs => by simpa [beqPyVal] using beqPyValList_refl xs
  | .vfrozenset xs => by simpa [beqPyVal] using beqPyValList_refl xs
  | .vdict kvs => by simpa [beqPyVal] using beqPyValPairs_refl kvs
  | .vrecord n t v => by simpa [beqPyVal] using beqPyValList_refl v
  | .vdcobj t f => by simpa [beqPyVal] using beqPyValFields_refl f
  | .vmarker m => by simp [beqPyVal]

theorem beqPyValList_refl : (xs : List PyVal) → beqPyValList xs xs = true
  | [] => by simp [beqPyValList]
  | x :: xs => by
    simp only [beqPyValList, Bool.and_eq_true]
    exact ⟨beqPyVal_refl x, beqPyValList_refl xs⟩

theorem beqPyValPairs_refl : (xs : List (PyVal × PyVal)) → beqPyValPairs xs xs = true
  | [] => by simp [beqPyValPairs]
  | (a, b) :: xs => by
    simp only [beqPyValPairs, Bool.and_eq_true]
    exact ⟨⟨beqPyVal_refl a, beqPyVal_refl b⟩, beqPyValPairs_refl xs⟩

theorem beqPyValFields_refl : (xs : List (String × PyVal)) → beqPyValFields xs xs = true
  | [] => by simp [beqPyValFields]
  | (k, v) :: xs => by
    simp only [beqPyValFields, Bool.and_eq_true]
    exact ⟨⟨by simp, beqPyVal_refl v⟩, beqPyValFields_refl xs⟩

end

/-- Python `==` is reflexive on the modelled values (no `NaN` is modelled:
`vfloat` carries an exact literal). -/
theorem pyEq_refl (v : PyVal) : pyEq v v = true := by
  cases v <;> simp only [pyEq] <;> exact beqPyVal_refl _

/-- A `list` is never `==` to a `frozenset`, whatever the contents. -/
theorem pyEq_list_frozenset (xs ys : List PyVal) :
    pyEq (.vlist xs) (.vfrozenset ys) = false := by
  simp [pyEq, beqPyVal]

/-- Narrowing the two marker objects themselves fails: `typing.NamedTuple`
has no `_asdict`. -/
theorem narrow_marker_error (fuel : Nat) (m : PyMarker) (tbl : SubstTable) :
    ∃ e, narrow_named_tuple_instance fuel (.vmarker m) tbl = .error e := by
  cases fuel with
  | zero => exact ⟨.fuelOut, rfl⟩
  | succ n => exact ⟨.attributeError, rfl⟩

theorem is_namedtuple_marker_true (v : PyVal) (h : is_namedtuple_marker v = true) :
    v = .vmarker .namedTupleMarker := by
  cases v with
  | vmarker m => cases m with
    | namedTupleMarker => rfl
    | iterableMarker => simp [is_namedtuple_marker] at h
  | vint x => simp [is_namedtuple_marker] at h
  | vfloat x => simp [is_namedtuple_marker] at h
  | vbool x => simp [is_namedtuple_marker] at h
  | vstr x => simp [is_namedtuple_marker] at h
  | vnone => simp [is_namedtuple_marker] at h
  | vlist x => simp [is_namedtuple_marker] at h
  | vtuple x => simp [is_namedtuple_marker] at h
  | vset x => simp [is_namedtuple_marker] at h
  | vfrozenset x => simp [is_namedtuple_marker] at h
  | vdict x => simp [is_namedtuple_marker] at h
  | vrecord a b c => simp [is_namedtuple_marker] at h
  | vdcobj a b => simp [is_namedtuple_marker] at h

theorem is_iterable_marker_true (v : PyVal) (h : is_iterable_marker v = true) :
    v = .vmarker .iterableMarker := by
  cases v with
  | vmarker m => cases m with
    | namedTupleMarker => simp [is_iterable_marker] at h
    | iterableMarker => rfl
  | vint x => simp [is_iterable_marker] at h
  | vfloat x => simp [is_iterable_marker] at h
  | vbool x => simp [is_iterable_marker] at h
  | vstr x => simp [is_iterable_marker] at h
  | vnone => simp [is_iterable_marker] at h
  | vlist x => simp [is_iterable_marker] at h
  | vtuple x => simp [is_iterable_marker] at h
  | vset x => simp [is_iterable_marker] at h
  | vfrozenset x => simp [is_iterable_marker] at h
  | vdict x => simp [is_iterable_marker] at h
  | vrecord a b c => simp [is_iterable_marker] at h
  | vdcobj a b => simp [is_iterable_marker] at h

/-- One step of the narrowing loop for a field value that is neither marker
object. -/
theorem narrow_items_cons_nonmarker (n : Nat) (k : String) (v : PyVal)
    (rest : List (String × PyVal)) (tbl : SubstTable)
    (h1 : is_namedtuple_marker v = false) (h2 : is_iterable_marker v = false) :
    narrow_items (n+1) ((k, v) :: rest) tbl =
      (match (match substLookup tbl (typeOf v) with
              | none => Except.ok v
              | some target =>
                match ctorFor target with
                | some c => applyCtor c v
                | none => Except.error PyErr.unmodeledCall) with
       | .error e => .error e
       | .ok v2 =>
         match narrow_items n rest tbl with
         | .error e => .error e
         | .ok rest2 => .ok ((k, v2) :: rest2)) := by
  simp [narrow_items, h1, h2]

/-- With no substitution table (`None`), a successful narrowing pass returns
every field value unchanged. -/
theorem narrow_items_none : ∀ (fuel : Nat) (kvs items : List (String × PyVal)),
    narrow_items fuel kvs none = .ok items → items = kvs := by
  intro fuel
  induction fuel with
  | zero =>
    intro kvs items h
    cases kvs with
    | nil =>
      simp only [narrow_items, Except.ok.injEq] at h
      exact h.symm
    | cons a rest => simp [narrow_items] at h
  | succ n ih =>
    intro kvs items h
    cases kvs with
    | nil =>
      simp only [narrow_items, Except.ok.injEq] at h
      exact h.symm
    | cons kv rest =>
      obtain ⟨k, v⟩ := kv
      cases hm1 : is_namedtuple_marker v with
      | true =>
        have hv := is_namedtuple_marker_true v hm1
        subst hv
        obtain ⟨e, he⟩ := narrow_marker_error n .namedTupleMarker none
        simp [narrow_items, is_namedtuple_marker, he] at h
      | false =>
        cases hm2 : is_iterable_marker v with
        | true =>
          have hv := is_iterable_marker_true v hm2
          subst hv
          simp [narrow_items, is_namedtuple_marker, is_iterable_marker] at h
        | false =>
          rw [narrow_items_cons_nonmarker n k v rest none hm1 hm2] at h
          simp only [substLookup] at h
          rcases hrest : narrow_items n rest none with e2 | rest2
          · rw [hrest] at h; simp at h
          · rw [hrest] at h
            simp only [Except.ok.injEq] at h
            rw [← h, ih rest rest2 hrest]

/-- Positive and negative computations of the `{frozenset: list}` table. -/
theorem substLookup_fsl_of_ne (t : PyType) (h : ¬ (PyType.base .frozenset = t)) :
    substLookup (some [(.base .frozenset, .base .list)]) t = none := by
  simp [substLookup, alookup, h]

/-- With the substitution table `{frozenset: list}`, a successful narrowing
pass rebuilds exactly the `frozenset`-valued fields as the `list` of their
elements and leaves every other field value unchanged. -/
theorem narrow_items_fsl : ∀ (fuel : Nat) (kvs items : List (String × PyVal)),
    narrow_items fuel kvs (some [(.base .frozenset, .base .list)]) = .ok items →
    items = kvs.map (fun p => (p.1, fsSubst p.2)) := by
  intro fuel
  induction fuel with
  | zero =>
    intro kvs items h
    cases kvs with
    | nil =>
      simp only [narrow_items, Except.ok.injEq] at h
      simp [← h]
    | cons a rest => simp [narrow_items] at h
  | succ n ih =>
    intro kvs items h
    cases kvs with
    | nil =>
      simp only [narrow_items, Except.ok.injEq] at h
      simp [← h]
    | cons kv rest =>
      obtain ⟨k, v⟩ := kv
      cases hm1 : is_namedtuple_marker v with
      | true =>
        have hv := is_namedtuple_marker_true v hm1
        subst hv
        obtain ⟨e, he⟩ := narrow_marker_error n .namedTupleMarker
          (some [(.base .frozenset, .base .list)])
        simp [narrow_items, is_namedtuple_marker, he] at h
      | false =>
        cases hm2 : is_iterable_marker v with
        | true =>
          have hv := is_iterable_marker_true v hm2
          subst hv
          simp [narrow_items, is_namedtuple_marker, is_iterable_marker] at h
        | false =>
          rw [narrow_items_cons_nonmarker n k v rest
            (some [(.base .frozenset, .base .list)]) hm1 hm2] at h
          cases hty : decEq (PyType.base PyBase.frozenset) (typeOf v) with
          | isTrue htyp =>
            -- the runtime type of the value is `frozenset`
            cases v with
            | vfrozenset xs =>
              simp only [typeOf] at h
              simp [substLookup, alookup, ctorFor, builtInConstructors,
                builtinClassCtor, applyCtor, iterElems, Except.map] at h
              rcases hrest : narrow_items n rest (some [(.base .frozenset, .base .list)])
                with e2 | rest2
              · rw [hrest] at h; simp at h
              · rw [hrest] at h
                simp only [Except.ok.injEq] at h
                rw [← h, ih rest rest2 hrest]
                simp [fsSubst]
            | vdcobj ty f =>
              -- a dataclass instance whose class happens to be `frozenset`
              -- is not iterable: `list(value)` raises and the run fails
              simp only [typeOf] at htyp
              subst htyp
              simp [substLookup, alookup, ctorFor, builtInConstructors,
                builtinClassCtor, applyCtor, iterElems, Except.map, typeOf] at h
            | vint x => simp [typeOf] at htyp
            | vfloat x => simp [typeOf] at htyp
            | vbool x => simp [typeOf] at htyp
            | vstr x => simp [typeOf] at htyp
            | vnone => simp [typeOf] at htyp
            | vlist x => simp [typeOf] at htyp
            | vtuple x => simp [typeOf] at htyp
            | vset x => simp [typeOf] at htyp
            | vdict x => simp [typeOf] at htyp
            | vrecord a b c => simp [typeOf] at htyp
            | vmarker m => cases m <;> simp [typeOf] at htyp
          | isFalse htyp =>
            rw [substLookup_fsl_of_ne (typeOf v) htyp] at h
            rcases hrest : narrow_items n rest (some [(.base .frozenset, .base .list)])
              with e2 | rest2
            · rw [hrest] at h; simp at h
            · rw [hrest] at h
              simp only [Except.ok.injEq] at h
              rw [← h, ih rest rest2 hrest]
              have hfs : fsSubst v = v := by
                cases v with
                | vfrozenset xs => simp [typeOf] at htyp
                | vint x => rfl
                | vfloat x => rfl
                | vbool x => rfl
                | vstr x => rfl
                | vnone => rfl
                | vlist x => rfl
                | vtuple x => rfl
                | vset x => rfl
                | vdict x => rfl
                | vrecord a b c => rfl
                | vdcobj a b => rfl
                | vmarker m => rfl
              simp [hfs]

/-- A keyword argument whose name belongs to none of the fields is ignored by
the field binding. -/
theorem assign_fields_skip : ∀ (fts : List (String × PyType)) (nm : String)
    (v : PyVal) (items : List (String × PyVal)),
    (∀ m ∈ fts.map Prod.fst, m ≠ nm) →
    assign_fields fts ((nm, v) :: items) = assign_fields fts items := by
  intro fts
  induction fts with
  | nil => intro nm v items h; rfl
  | cons a rest ih =>
    obtain ⟨n, t⟩ := a
    intro nm v items h
    have hn : ¬ (nm = n) := fun hh => (h n (by simp)) hh.symm
    have hrec := ih nm v items (fun m hm => h m (by simp [hm]))
    simp only [assign_fields, alookup, if_neg hn, hrec]

/-- When the supplied keyword list has exactly the declared field names in
declared order (and they are distinct, as Python guarantees for a class),
keyword binding returns the keyword list itself. -/
theorem assign_fields_aligned : ∀ (fts : List (String × PyType))
    (items : List (String × PyVal)),
    fts.map Prod.fst = items.map Prod.fst →
    (items.map Prod.fst).Nodup →
    assign_fields fts items = .ok items := by
  intro fts
  induction fts with
  | nil =>
    intro items h _
    cases items with
    | nil => rfl
    | cons a its => simp at h
  | cons a rest ih =>
    obtain ⟨n, t⟩ := a
    intro items h hnd
    cases items with
    | nil => simp at h
    | cons b its =>
      obtain ⟨n', v⟩ := b
      simp only [List.map_cons, List.cons.injEq] at h
      obtain ⟨hn, htl⟩ := h
      subst hn
      simp only [List.map_cons, List.nodup_cons] at hnd
      have hskip : assign_fields rest ((n, v) :: its) = assign_fields rest its := by
        refine assign_fields_skip rest n v its ?_
        intro m hm
        rw [htl] at hm
        intro hcontra
        rw [hcontra] at hm
        exact hnd.1 hm
      simp [assign_fields, alookup, hskip, ih its htl hnd.2]

/-- Keyword construction of a synthesized dataclass with exactly the declared
names in declared order stores exactly the supplied bindings. -/
theorem constructDataclass_aligned (i : Nat) (nm : String)
    (fieldTys : List (String × PyType)) (items : List (String × PyVal))
    (h : fieldTys.map Prod.fst = items.map Prod.fst)
    (hnd : (items.map Prod.fst).Nodup) :
    constructDataclass (.dcls i nm fieldTys) items
      = .ok (.vdcobj (.dcls i nm fieldTys) items) := by
  have hall : (items.all (fun it => fieldTys.any (fun f => decide (f.fst = it.fst)))) = true := by
    rw [List.all_eq_true]
    intro it hit
    rw [List.any_eq_true]
    have hmem : it.fst ∈ fieldTys.map Prod.fst := by
      rw [h]
      exact List.mem_map_of_mem Prod.fst hit
    obtain ⟨f, hf, hfe⟩ := List.mem_map.mp hmem
    exact ⟨f, hf, by simp [hfe]⟩
  simp [constructDataclass, hall, assign_fields_aligned fieldTys items h hnd]

/-- Narrowing a record instance with no substitution table yields its
`_asdict` unchanged. -/
theorem narrow_record_none (fuel : Nat) (n : String)
    (ftys : List (String × PyType)) (vals : List PyVal)
    (items : List (String × PyVal))
    (h : narrow_named_tuple_instance fuel (.vrecord n ftys vals) none = .ok items) :
    items = List.zip (ftys.map Prod.fst) vals := by
  cases fuel with
  | zero => simp [narrow_named_tuple_instance] at h
  | succ m =>
    simp only [narrow_named_tuple_instance, asdict] at h
    exact narrow_items_none m _ items h

/-- Narrowing a record instance with the `{frozenset: list}` table yields its
`_asdict` with exactly the `frozenset` values rebuilt as lists. -/
theorem narrow_record_fsl (fuel : Nat) (n : String)
    (ftys : List (String × PyType)) (vals : List PyVal)
    (items : List (String × PyVal))
    (h : narrow_named_tuple_instance fuel (.vrecord n ftys vals)
      (some [(.base .frozenset, .base .list)]) = .ok items) :
    items = List.zip (ftys.map Prod.fst) (vals.map fsSubst) := by
  cases fuel with
  | zero => simp [narrow_named_tuple_instance] at h
  | succ m =>
    simp only [narrow_named_tuple_instance, asdict] at h
    have := narrow_items_fsl m _ items h
    rw [this]
    rw [List.zip_map_right]
    congr 1

/-- C3: converting an instance with no substitution table yields a target
instance whose field named `f` holds (hence compares `==`-equal to) exactly
the source instance's field `f`, for every field: the stored binding list of
the new dataclass instance is literally `zip(fieldNames, values)` of the
source instance, and Python equality is reflexive on the stored values. -/
theorem c3_value_fidelity (fuel : Nat) (n : String)
    (ftys : List (String × PyType)) (vals : List PyVal) (st st' : ConvState)
    (obj : PyVal) (ty : PyType)
    (hnd : (ftys.map Prod.fst).Nodup) (hlen : vals.length = ftys.length)
    (h : get_dataclass_object fuel (.vrecord n ftys vals) none false st
      = (.ok (obj, ty), st')) :
    obj = .vdcobj ty (List.zip (ftys.map Prod.fst) vals) ∧
    ∀ p ∈ List.zip (ftys.map Prod.fst) vals, pyEq p.2 p.2 = true := by
  rcases hmk : make_dataclass fuel (.record n ftys) none "" "DataClass" false st
    with ⟨r, st1⟩
  cases r with
  | error e => simp [get_dataclass_object, typeOf, hmk] at h
  | ok T =>
    rcases hnar : narrow_named_tuple_instance fuel (.vrecord n ftys vals) none
      with e | items
    · simp [get_dataclass_object, typeOf, hmk, hnar] at h
    · obtain ⟨m, hints, fs2, s1, _, hg, hrw, hT, _⟩ :=
        make_dataclass_false_ok fuel (.record n ftys) none "" "DataClass" st st1 T hmk
      simp only [getTypeHints, Except.ok.injEq] at hg
      subst hg
      have hnames := rewrite_fields_names m ftys none "" "" false st s1 fs2 hrw
      have hitems := narrow_record_none fuel n ftys vals items hnar
      have hitems_names : fs2.map Prod.fst
          = (List.zip (ftys.map Prod.fst) vals).map Prod.fst := by
        rw [hnames, List.map_fst_zip]
        rw [List.length_map, hlen]
      have hcon := constructDataclass_aligned s1.counter ("" ++ nameOf (PyType.record n ftys) ++ "DataClass")
        fs2 (List.zip (ftys.map Prod.fst) vals) hitems_names
        (by rw [← hitems_names, hnames]; exact hnd)
      rw [← hT] at hcon
      rw [hitems] at hnar
      simp only [get_dataclass_object, typeOf, hmk, hnar, hcon] at h
      simp only [Prod.mk.injEq, Except.ok.injEq] at h
      obtain ⟨⟨hobj, hty⟩, _⟩ := h
      refine ⟨?_, fun p _ => pyEq_refl p.2⟩
      rw [← hobj, ← hty]

theorem c3_value_fidelity_witness :
    (List.map Prod.fst ([("a", PyType.base .int), ("b", PyType.base .float), ("c", PyType.base .bool)])).Nodup ∧
    ([PyVal.vint 1, PyVal.vfloat (21/10), PyVal.vbool true].length
      = ([("a", PyType.base .int), ("b", PyType.base .float), ("c", PyType.base .bool)] : List (String × PyType)).length) ∧
    (get_dataclass_object 9
        (.vrecord "SimpleNamedTuple"
          [("a", PyType.base .int), ("b", PyType.base .float), ("c", PyType.base .bool)]
          [PyVal.vint 1, PyVal.vfloat (21/10), PyVal.vbool true]) none false ⟨[], 0⟩
      = (.ok (.vdcobj
            (.dcls 0 "SimpleNamedTupleDataClass"
              [("a", PyType.base .int), ("b", PyType.base .float), ("c", PyType.base .bool)])
            [("a", PyVal.vint 1), ("b", PyVal.vfloat (21/10)), ("c", PyVal.vbool true)],
          .dcls 0 "SimpleNamedTupleDataClass"
            [("a", PyType.base .int), ("b", PyType.base .float), ("c", PyType.base .bool)]),
         ⟨[], 1⟩)) ∧
    ((PyVal.vdcobj
        (.dcls 0 "SimpleNamedTupleDataClass"
          [("a", PyType.base .int), ("b", PyType.base .float), ("c", PyType.base .bool)])
        [("a", PyVal.vint 1), ("b", PyVal.vfloat (21/10)), ("c", PyVal.vbool true)])
      = .vdcobj
          (.dcls 0 "SimpleNamedTupleDataClass"
            [("a", PyType.base .int), ("b", PyType.base .float), ("c", PyType.base .bool)])
          (List.zip (List.map Prod.fst
            ([("a", PyType.base .int), ("b", PyType.base .float), ("c", PyType.base .bool)]))
            [PyVal.vint 1, PyVal.vfloat (21/10), PyVal.vbool true]) ∧
     ∀ p ∈ List.zip (List.map Prod.fst
          ([("a", PyType.base .int), ("b", PyType.base .float), ("c", PyType.base .bool)]))
          [PyVal.vint 1, PyVal.vfloat (21/10), PyVal.vbool true],
       pyEq p.2 p.2 = true) :=
  ⟨by simp, by rfl, by rfl,
   c3_value_fidelity 9 "SimpleNamedTuple"
     [("a", PyType.base .int), ("b", PyType.base .float), ("c", PyType.base .bool)]
     [PyVal.vint 1, PyVal.vfloat (21/10), PyVal.vbool true] ⟨[], 0⟩ ⟨[], 1⟩
     (.vdcobj
       (.dcls 0 "SimpleNamedTupleDataClass"
         [("a", PyType.base .int), ("b", PyType.base .float), ("c", PyType.base .bool)])
       [("a", PyVal.vint 1), ("b", PyVal.vfloat (21/10)), ("c", PyVal.vbool true)])
     (.dcls 0 "SimpleNamedTupleDataClass"
       [("a", PyType.base .int), ("b", PyType.base .float), ("c", PyType.base .bool)])
     (by simp) (by rfl) (by rfl)⟩

/-- C4: converting an instance through the substitution table
`{frozenset: list}` yields a derived instance whose bindings are the source
bindings with every `frozenset` field value rebuilt — through `list`'s native
constructor — as the list of its elements; such a field equals
`list(originalValue)` (reflexivity of `==` on the rebuilt list) and is not
`==`-equal to the original `frozenset` value. -/
theorem c4_container_substitution (fuel : Nat) (n : String)
    (ftys : List (String × PyType)) (vals : List PyVal) (st st' : ConvState)
    (obj : PyVal) (ty : PyType) (i : Nat) (xs : List PyVal)
    (hnd : (ftys.map Prod.fst).Nodup) (hlen : vals.length = ftys.length)
    (h : get_dataclass_object fuel (.vrecord n ftys vals)
      (some [(.base .frozenset, .base .list)]) false st = (.ok (obj, ty), st'))
    (hx : vals[i]? = some (.vfrozenset xs)) :
    obj = .vdcobj ty (List.zip (ftys.map Prod.fst) (vals.map fsSubst)) ∧
    (vals.map fsSubst)[i]? = some (.vlist xs) ∧
    applyCtor .mkList (.vfrozenset xs) = .ok (.vlist xs) ∧
    pyEq (.vlist xs) (.vfrozenset xs) = false ∧
    pyEq (.vlist xs) (.vlist xs) = true := by
  rcases hmk : make_dataclass fuel (.record n ftys)
    (some [(.base .frozenset, .base .list)]) "" "DataClass" false st with ⟨r, st1⟩
  cases r with
  | error e => simp [get_dataclass_object, typeOf, hmk] at h
  | ok T =>
    rcases hnar : narrow_named_tuple_instance fuel (.vrecord n ftys vals)
      (some [(.base .frozenset, .base .list)]) with e | items
    · simp [get_dataclass_object, typeOf, hmk, hnar] at h
    · obtain ⟨m, hints, fs2, s1, _, hg, hrw, hT, _⟩ :=
        make_dataclass_false_ok fuel (.record n ftys)
          (some [(.base .frozenset, .base .list)]) "" "DataClass" st st1 T hmk
      simp only [getTypeHints, Except.ok.injEq] at hg
      subst hg
      have hnames := rewrite_fields_names m ftys
        (some [(.base .frozenset, .base .list)]) "" "" false st s1 fs2 hrw
      have hitems := narrow_record_fsl fuel n ftys vals items hnar
      have hitems_names : fs2.map Prod.fst
          = (List.zip (ftys.map Prod.fst) (vals.map fsSubst)).map Prod.fst := by
        rw [hnames, List.map_fst_zip]
        rw [List.length_map, List.length_map, hlen]
      have hcon := constructDataclass_aligned s1.counter
        ("" ++ nameOf (PyType.record n ftys) ++ "DataClass")
        fs2 (List.zip (ftys.map Prod.fst) (vals.map fsSubst)) hitems_names
        (by rw [← hitems_names, hnames]; exact hnd)
      rw [← hT] at hcon
      rw [hitems] at hnar
      simp only [get_dataclass_object, typeOf, hmk, hnar, hcon] at h
      simp only [Prod.mk.injEq, Except.ok.injEq] at h
      obtain ⟨⟨hobj, hty⟩, _⟩ := h
      refine ⟨by rw [← hobj, ← hty], ?_, by rfl, pyEq_list_frozenset xs xs,
        pyEq_refl (.vlist xs)⟩
      rw [List.getElem?_map, hx]
      rfl

theorem c4_container_substitution_witness :
    (List.map Prod.fst ([("a", PyType.base .str),
        ("b", PyType.generic (.base .frozenset) [.base .int]),
        ("c", PyType.base .bool)] : List (String × PyType))).Nodup ∧
    ([PyVal.vstr "Hello, World", PyVal.vfrozenset [.vint 1, .vint 2, .vint 3],
        PyVal.vbool true].length
      = ([("a", PyType.base .str),
          ("b", PyType.generic (.base .frozenset) [.base .int]),
          ("c", PyType.base .bool)] : List (String × PyType)).length) ∧
    (get_dataclass_object 9
        (.vrecord "NamedTupleWithReplacement"
          [("a", PyType.base .str),
           ("b", PyType.generic (.base .frozenset) [.base .int]),
           ("c", PyType.base .bool)]
          [PyVal.vstr "Hello, World", PyVal.vfrozenset [.vint 1, .vint 2, .vint 3],
           PyVal.vbool true])
        (some [(.base .frozenset, .base .list)]) false ⟨[], 0⟩
      = (.ok (.vdcobj
            (.dcls 0 "NamedTupleWithReplacementDataClass"
              [("a", PyType.base .str),
               ("b", PyType.generic (.base .list) [.base .int]),
               ("c", PyType.base .bool)])
            [("a", PyVal.vstr "Hello, World"),
             ("b", PyVal.vlist [.vint 1, .vint 2, .vint 3]),
             ("c", PyVal.vbool true)],
          .dcls 0 "NamedTupleWithReplacementDataClass"
            [("a", PyType.base .str),
             ("b", PyType.generic (.base .list) [.base .int]),
             ("c", PyType.base .bool)]),
         ⟨[], 1⟩)) ∧
    ([PyVal.vstr "Hello, World", PyVal.vfrozenset [.vint 1, .vint 2, .vint 3],
        PyVal.vbool true][1]? = some (.vfrozenset [.vint 1, .vint 2, .vint 3])) ∧
    (pyEq (.vlist [.vint 1, .vint 2, .vint 3]) (.vfrozenset [.vint 1, .vint 2, .vint 3])
        = false ∧
     pyEq (.vlist [.vint 1, .vint 2, .vint 3]) (.vlist [.vint 1, .vint 2, .vint 3])
        = true) :=
  ⟨by simp, by rfl, by rfl, by rfl,
   (c4_container_substitution 9 "NamedTupleWithReplacement"
      [("a", PyType.base .str),
       ("b", PyType.generic (.base .frozenset) [.base .int]),
       ("c", PyType.base .bool)]
      [PyVal.vstr "Hello, World", PyVal.vfrozenset [.vint 1, .vint 2, .vint 3],
       PyVal.vbool true] ⟨[], 0⟩ ⟨[], 1⟩
      (.vdcobj
        (.dcls 0 "NamedTupleWithReplacementDataClass"
          [("a", PyType.base .str),
           ("b", PyType.generic (.base .list) [.base .int]),
           ("c", PyType.base .bool)])
        [("a", PyVal.vstr "Hello, World"),
         ("b", PyVal.vlist [.vint 1, .vint 2, .vint 3]),
         ("c", PyVal.vbool true)])
      (.dcls 0 "NamedTupleWithReplacementDataClass"
        [("a", PyType.base .str),
         ("b", PyType.generic (.base .list) [.base .int]),
         ("c", PyType.base .bool)])
      1 [.vint 1, .vint 2, .vint 3]
      (by simp) (by rfl) (by rfl) (by rfl)).2.2.2⟩
